import Mathlib

/-!
# Verification of the washify ETL pipelines

Shallow embedding of the three ETL pipelines of the washify repository:

* `loader_log_importer_render.py` — the loader tail-resume parser
  (4-line blocks, tail seek, loader_log insert plus super/tunnel updates,
  gated source-file deletion);
* `upload_from_aws.py` — the kiosk session reconstructor
  (line-by-line state machine, invoice detection, unlimited flags,
  wash-type mapping, row construction, upsert by bill);
* `upload_from_rtc.py` — the RTC event importer
  (recv filter, consecutive-duplicate early stop, unconditional deletion).

Machine integers are modelled as `Nat`/`Int`; monetary amounts as exact
hundredths (`Nat`), which represents every value the two-decimal regex
captures can produce without loss; database tables as lists or as
functions keyed by the natural key.
External failures (database statements raising) are modelled by explicit
failure oracles. Python regular-expression matches on kiosk lines are
modelled as per-pattern match-result fields of a structured `Line`;
string-level operations that the claims depend on (substring containment,
uppercase, the loader timestamp parsing) are implemented on real strings.
-/

namespace Washify

/-! ## Shared string utilities -/

/-- Numeric value of a list of decimal digit characters. -/
def digitsToNat (ds : List Char) : Nat :=
  ds.foldl (fun a c => a * 10 + (c.toNat - 48)) 0

/-- Substring test on character lists: does `h` contain `n` as a contiguous run?
Mirrors the Python `n in h` operator. -/
def subList (n : List Char) : List Char → Bool
  | [] => n.isEmpty
  | c :: t => n.isPrefixOf (c :: t) || subList n t

/-- Python `pat in hay` substring containment for strings. -/
def containsSub (hay pat : String) : Bool :=
  subList pat.toList hay.toList

/-- ASCII uppercase of a string, mirrors Python `str.upper` on the
ASCII vocabulary used by the pipelines. -/
def strUpper (s : String) : String :=
  String.mk (s.toList.map Char.toUpper)

/-- Zero-pad a numeral to two digits, as `strftime` with `%H` etc. does. -/
def pad2 (n : Nat) : String :=
  if n < 10 then "0" ++ toString n else toString n

/-- Python `str.strip()` on a character list. -/
def trimChars (cs : List Char) : List Char :=
  ((cs.dropWhile Char.isWhitespace).reverse.dropWhile Char.isWhitespace).reverse

/-- Python `str.strip()`. -/
def pyStrip (s : String) : String :=
  String.mk (trimChars s.toList)

/-- Python `s.replace(ab, "")` for a two-character pattern: delete every
non-overlapping occurrence, left to right (the source removes the AM and
PM markers this way). -/
def removePat2 (a b : Char) : List Char → List Char
  | [] => []
  | [c] => [c]
  | c :: d :: t =>
    if c = a ∧ d = b then removePat2 a b t
    else c :: removePat2 a b (d :: t)

/-- Python `s.split(sep)` for a one-character separator. -/
def splitOnChar (sep : Char) : List Char → List (List Char)
  | [] => [[]]
  | c :: t =>
    if c = sep then [] :: splitOnChar sep t
    else
      match splitOnChar sep t with
      | h :: r => (c :: h) :: r
      | [] => [[c]]

/-! ## Loader pipeline (`loader_log_importer_render.py`) -/

/-- One row of the `loader_log` table: `bill, washify_rec, log_dt, log_time`.
Dates and times are kept as the strings the loader writes; the database
ordering on them is modelled by lexicographic string order. -/
structure LoaderRec where
  bill : Nat
  washify_rec : Nat
  log_dt : String
  log_time : String
deriving DecidableEq, Repr

/-- Is `b` strictly later than `a` under `ORDER BY log_dt DESC, log_time DESC`? -/
def laterRec (a b : LoaderRec) : Bool :=
  decide (a.log_dt < b.log_dt) || (decide (a.log_dt = b.log_dt) && decide (a.log_time < b.log_time))

/-- Embeds `get_last_processed_bill`: the query
`SELECT bill ... ORDER BY log_dt DESC, log_time DESC LIMIT 1`; returns the
bill of the most recently persisted loader record, or `none` on an empty
table. -/
def get_last_processed_bill (table : List LoaderRec) : Option Nat :=
  match table.foldl
      (fun acc r => match acc with
        | none => some r
        | some m => if laterRec m r then some r else some m) none with
  | none => none
  | some r => some r.bill

/-- One field of a `%H:%M:%S` timestamp: `strptime` accepts one or two
digit characters, whole-field, bounded by `hi`. -/
def timeField (cs : List Char) (hi : Nat) : Option Nat :=
  if cs.length = 0 || decide (cs.length > 2) then none
  else if cs.all Char.isDigit then
    let v := digitsToNat cs
    if v ≤ hi then some v else none
  else none

/-- Embeds `normalize_time`: parse `t` with `strptime "%H:%M:%S"`
(each field one or two digits; hours up to 23, minutes up to 59, seconds up
to 61 as `strptime` allows leap seconds) and re-render zero-padded; `none`
when unparseable. -/
def normalize_time (t : String) : Option String :=
  match splitOnChar ':' t.toList with
  | [h, m, s] =>
    match timeField h 23, timeField m 59, timeField s 61 with
    | some hv, some mv, some sv =>
      some (pad2 hv ++ ":" ++ pad2 mv ++ ":" ++ pad2 sv)
    | _, _, _ => none
  | _ => none

/-- The leading run of non-comma characters of a line; mirrors
`re.match(r"^([^,]+)", line)` (empty when the line starts with a comma,
in which case the regex does not match and the code uses the empty string). -/
def takeBeforeComma (s : String) : String :=
  String.mk (s.toList.takeWhile (fun c => !(c = ',')))

/-- Python `s.split(" ", 1)`: split at the first space only;
`none` when the string has no space (the code then raises). -/
def splitOnce (s : String) : Option (String × String) :=
  let cs := s.toList
  match cs.findIdx? (fun c => c = ' ') with
  | none => none
  | some i => some (String.mk (cs.take i), String.mk (cs.drop (i + 1)))

/-- First match of `re.search(r"Invoice Id (\d+)", line)` over a character
list: the earliest position where the literal `Invoice Id ` is followed by a
digit; the captured value is the maximal digit run there. -/
def findInvoiceNum : List Char → Option Nat
  | [] => none
  | c :: t =>
    if ("Invoice Id ".toList).isPrefixOf (c :: t) then
      let rest := (c :: t).drop 11
      match rest.head? with
      | some d =>
        if d.isDigit then some (digitsToNat (rest.takeWhile Char.isDigit))
        else findInvoiceNum t
      | none => findInvoiceNum t
    else findInvoiceNum t

/-- String-level wrapper for `findInvoiceNum`. -/
def searchInvoiceId (line : String) : Option Nat :=
  findInvoiceNum line.toList

/-- The data a loader block yields when all of its fields parse. -/
structure BlockData where
  date_part : String
  time_part : String
  bill : Nat
  washify_rec : Nat
deriving DecidableEq, Repr

/-- Embeds the parsing part of one block of `process_folder`:
timestamp from line 1 (prefix before the first comma, split at the first
space, AM/PM stripped, time normalized), primary bill from line 2,
washify bill from line 4; `none` on any of the raises the code catches. -/
def parse_block (line1 line2 line4 : String) : Option BlockData :=
  let timestamp_raw := pyStrip (takeBeforeComma line1)
  match splitOnce timestamp_raw with
  | none => none
  | some (date_part, time0) =>
    let time_raw := String.mk (trimChars (removePat2 'P' 'M' (removePat2 'A' 'M' time0.toList)))
    match normalize_time time_raw with
    | none => none
    | some time_part =>
      match searchInvoiceId line2, searchInvoiceId line4 with
      | some bill, some wr => some ⟨date_part, time_part, bill, wr⟩
      | _, _ => none

/-- One row of the `super` table (the columns the loader touches). -/
structure SuperRow where
  bill : Nat
  created_on : String
  location : String
  status : Option Int
  prep_end : Option String
  status_desc : Option String
deriving DecidableEq, Repr

/-- One row of the `tunnel` table (the columns the loader touches). -/
structure TunnelRow where
  bill : Nat
  created_on : String
  location : String
  load : Bool
  load_time : Option String
deriving DecidableEq, Repr

/-- The `status IS NULL OR status < 3` predicate of the super update. -/
def status_lt3 : Option Int → Bool
  | none => true
  | some s => decide (s < 3)

/-- Embeds the `UPDATE super` statement of `process_folder` on one row:
rows matching `bill`, `created_on` and `location = FRA` with status null
or below 3 advance to status 3 / `Wash`; others are untouched. -/
def super_update_row (time_part : String) (bill : Nat) (date_part : String)
    (r : SuperRow) : SuperRow :=
  if r.bill = bill ∧ r.created_on = date_part ∧ r.location = "FRA" ∧ status_lt3 r.status = true then
    { r with status := some 3, prep_end := some time_part, status_desc := some "Wash" }
  else r

/-- Embeds the `UPDATE tunnel` statement of `process_folder` on one row:
rows matching `bill`, `created_on` and `location = FRA` get the load flag
and load time set; others are untouched. -/
def tunnel_update_row (time_part : String) (bill : Nat) (date_part : String)
    (r : TunnelRow) : TunnelRow :=
  if r.bill = bill ∧ r.created_on = date_part ∧ r.location = "FRA" then
    { r with load := true, load_time := some time_part }
  else r

/-- Relational state the loader touches. -/
structure LoaderStore where
  loader_log : List LoaderRec
  super : List SuperRow
  tunnel : List TunnelRow
deriving DecidableEq, Repr

/-- Failure oracles for the three database statements of one block,
indexed by the block start index: `true` means the statement raises. -/
structure LoaderOracle where
  insertFail : Nat → Bool
  superFail : Nat → Bool
  tunnelFail : Nat → Bool

/-- What happened inside one block of the loop: which statements were
attempted, which succeeded, and whether the except branch ran. -/
structure BlockReport where
  idx : Nat
  parsedOk : Bool
  existed : Bool
  insertAttempted : Bool
  insertOk : Bool
  superAttempted : Bool
  superOk : Bool
  tunnelAttempted : Bool
  tunnelOk : Bool
  errored : Bool
deriving DecidableEq, Repr

/-- The `SELECT 1 FROM loader_log WHERE bill = %s` existence check. -/
def billExists (st : LoaderStore) (bill : Nat) : Bool :=
  st.loader_log.any (fun r => r.bill == bill)

/-- The super-then-tunnel tail of one block, entered after the
insert stage; a raise in the super update skips the tunnel update
(single per-block try in the source). -/
def superTunnelStage (orc : LoaderOracle) (st : LoaderStore) (i : Nat) (b : BlockData)
    (ex insertAtt insertOk : Bool) : LoaderStore × BlockReport :=
  if orc.superFail i then
    (st, ⟨i, true, ex, insertAtt, insertOk, true, false, false, false, true⟩)
  else
    let st1 := { st with super := st.super.map (super_update_row b.time_part b.bill b.date_part) }
    if orc.tunnelFail i then
      (st1, ⟨i, true, ex, insertAtt, insertOk, true, true, true, false, true⟩)
    else
      let st2 := { st1 with tunnel := st1.tunnel.map (tunnel_update_row b.time_part b.bill b.date_part) }
      (st2, ⟨i, true, ex, insertAtt, insertOk, true, true, true, true, false⟩)

/-- Embeds the body of one iteration of the block loop of `process_folder`:
parse the block; on success check existence, insert when absent, then run
the super and tunnel updates. The whole body sits in one try: a raise at
any stage stops the rest of the block and marks it errored. -/
def process_block (orc : LoaderOracle) (st : LoaderStore) (i : Nat)
    (line1 line2 line4 : String) : LoaderStore × BlockReport :=
  match parse_block line1 line2 line4 with
  | none => (st, ⟨i, false, false, false, false, false, false, false, false, true⟩)
  | some b =>
    let ex := billExists st b.bill
    if ex then
      superTunnelStage orc st i b true false false
    else if orc.insertFail i then
      (st, ⟨i, true, false, true, false, false, false, false, false, true⟩)
    else
      let st1 := { st with loader_log := st.loader_log ++ [⟨b.bill, b.washify_rec, b.date_part, b.time_part⟩] }
      superTunnelStage orc st1 i b false true true

/-- Embeds the backward scan of the tail seek:
`for idx in range(len(lines) - 1, -1, -1): if pat in lines[idx]: ...` —
called with `n = lines.length`, returns the greatest index below `n`
whose line contains `pat`. -/
def seekBack (lines : List String) (pat : String) : Nat → Option Nat
  | 0 => none
  | j + 1 =>
    if containsSub (lines.getD j "") pat then some j
    else seekBack lines pat j

/-- Embeds the start-index computation of `process_folder`: Python
`if last_bill:` is false for both `None` and the integer 0, so only a
nonzero last bill triggers the backward scan for `Invoice Id <bill>`;
a hit starts at the aligned block boundary `idx - idx % 4`. -/
def start_index (lines : List String) (last_bill : Option Nat) : Nat :=
  match last_bill with
  | none => 0
  | some b =>
    if b = 0 then 0
    else
      match seekBack lines ("Invoice Id " ++ toString b) lines.length with
      | some idx => idx - idx % 4
      | none => 0

/-- Embeds the block loop of `process_folder` from index `i`: stops at the
end, breaks cleanly on an incomplete trailing block, otherwise processes
the 4-line block and advances by 4 whether or not the block errored.
The fuel argument only forces structural recursion; every call from
`blocksLoop` supplies more fuel than the loop can consume, since each
iteration advances `i` by 4. -/
def blocksLoopF (orc : LoaderOracle) (lines : List String) :
    Nat → Nat → LoaderStore → LoaderStore × List BlockReport
  | 0, _, st => (st, [])
  | fuel + 1, i, st =>
    if i < lines.length then
      if i + 3 ≥ lines.length then (st, [])
      else
        let p := process_block orc st i (lines.getD i "") (lines.getD (i + 1) "") (lines.getD (i + 3) "")
        let q := blocksLoopF orc lines fuel (i + 4) p.1
        (q.1, p.2 :: q.2)
    else (st, [])

/-- The block loop with enough fuel for the whole file. -/
def blocksLoop (orc : LoaderOracle) (lines : List String) (i : Nat) (st : LoaderStore) :
    LoaderStore × List BlockReport :=
  blocksLoopF orc lines (lines.length + 1) i st

/-- Outcome of the loader pipeline on one file. -/
structure LoaderRun where
  store : LoaderStore
  reports : List BlockReport
  deleted : Bool
deriving Repr

/-- Embeds `process_folder` restricted to one file: fetch the last processed
bill, tail-seek the start index, walk the blocks, and delete the source
object exactly when every processed block succeeded (`full_success`). -/
def process_file (orc : LoaderOracle) (st : LoaderStore) (lines : List String) : LoaderRun :=
  let last_bill := get_last_processed_bill st.loader_log
  let si := start_index lines last_bill
  let r := blocksLoop orc lines si st
  let full_success := r.2.all (fun rep => !rep.errored)
  ⟨r.1, r.2, full_success⟩

/-! ## Kiosk pipeline (`upload_from_aws.py`) -/

/-- The two unlimited-membership flag kinds. -/
inductive UType
  | NEW
  | RECURRING
deriving DecidableEq, Repr

/-- A kiosk log line after the timestamp header has been split off,
modelled by its per-pattern match results: each field is the captured
group of the corresponding module-level regex (or the containment test
for the plain substring markers), applied to the post-header content.
Timestamps are abstract instants ordered as `Nat`; monetary amounts are
exact hundredths (`Nat`), which represents the Python floats obtained from
the two-decimal regex captures exactly. -/
structure Line where
  ts : Option Nat
  invoiceInlinePay : Option String
  doTxn : Option String
  proceedInvoice : Option String
  invoiceAny : Option String
  invoiceAws : Option String
  unlimitedNew : Bool
  unlimitedRecur : Bool
  customerName : Option String
  licensePlate : Option String
  svcControl : Bool
  selService : Bool
  selOptService : Bool
  washPkg : Option (String × String)
  saveTxns : Bool
  saveTxn : Bool
  paymentType : Option String
  awsFile : Option String
  discountBoth : Option (String × Nat)
  discountAmount : Option Nat
  taxAmt : Option Nat
  totalAmt : Option Nat
  proceedVM : Bool
  returnMain : Bool
  txnMethods : Bool
  resetTxn : Bool
deriving DecidableEq, Repr

/-- A line matching nothing at all; concrete lines are built from it. -/
def emptyLine : Line :=
  ⟨none, none, none, none, none, none, false, false, none, none, false, false,
   false, none, false, false, none, none, none, none, none, none, false, false,
   false, false⟩

/-- The running kiosk session object, one field per key of the Python
dict built by `new_session`. The addon map keeps dict semantics: keyed by
package id, insertion-ordered, overwriting in place. -/
structure Session where
  invoice : Option String
  first_ts : Option Nat
  last_ts : Option Nat
  customer_name : Option String
  license_plate : Option String
  wash_package_id : Option String
  wash_package_name : Option String
  payment_type : Option String
  payment_type_ts : Option Nat
  image_path : Option String
  is_unlimited : Bool
  unlimited_type : Option UType
  unlimited_ts : Option Nat
  addon_map : List (String × String × Option Nat)
  tip_amount : Nat
  tip_ts : Option Nat
  discount_code : Option String
  discount_amount : Option Nat
  tax : Option Nat
  total : Option Nat
deriving DecidableEq, Repr

/-- Embeds `new_session`. -/
def new_session (ts : Option Nat) : Session :=
  ⟨none, ts, ts, none, none, none, none, none, none, none, false, none, none,
   [], 0, none, none, none, none, none⟩

/-- Python truthiness of an optional string: `None` and the empty string
are falsy. -/
def strFalsy : Option String → Bool
  | none => true
  | some s => s.isEmpty

/-- Python `ts and ts >= other` for optional timestamps. -/
def optTsGE : Option Nat → Option Nat → Bool
  | some a, some b => decide (a ≥ b)
  | _, _ => false

/-- Python `ts and (not last or ts > last)` for optional timestamps. -/
def optTsGT : Option Nat → Option Nat → Bool
  | some a, some b => decide (a > b)
  | some _, none => true
  | none, _ => false

/-- Embeds `set_unlimited`: guarded by
`(not unlimited_ts) or (ts and ts >= unlimited_ts) or (flag is RECURRING)`;
inside, the type is overwritten only when the flag is RECURRING or no type
was recorded yet, and `unlimited_ts` keeps the old value when the line has
no timestamp. -/
def set_unlimited (s : Session) (flag_type : UType) (ts : Option Nat) : Session :=
  if s.unlimited_ts = none ∨ optTsGE ts s.unlimited_ts = true ∨ flag_type = UType.RECURRING then
    { s with
      is_unlimited := true
      unlimited_type :=
        if flag_type = UType.RECURRING ∨ s.unlimited_type = none then some flag_type
        else s.unlimited_type
      unlimited_ts := match ts with | some t => some t | none => s.unlimited_ts }
  else s

/-- Word character in the sense of the regex `\b` boundary. -/
def wordChar (c : Char) : Bool := c.isAlphanum || c = '_'

/-- Embeds `is_tip_text`: `re.search(r"^\s*TIP\b", txt, IGNORECASE)` —
after leading whitespace the text starts with TIP followed by a word
boundary. -/
def is_tip_text (txt : String) : Bool :=
  match (txt.toList.dropWhile Char.isWhitespace).map Char.toUpper with
  | 'T' :: 'I' :: 'P' :: rest =>
    match rest.head? with
    | none => true
    | some c => !wordChar c
  | _ => false

/-- The amount capture `([0-9]+(?:\.[0-9]{1,2})?)\b` at the head of a
character list, with the backtracking the trailing boundary forces:
a fractional part of two, then one digit is tried, falling back to the
bare integer part (a dot is itself a boundary). -/
def parseAmount (cs : List Char) : Option Nat :=
  let ds := cs.takeWhile Char.isDigit
  if ds.isEmpty then none
  else
    let intval : Nat := digitsToNat ds * 100
    let boundaryAfter : List Char → Nat → Bool := fun t k =>
      match (t.drop k).head? with
      | none => true
      | some c => !wordChar c
    match cs.dropWhile Char.isDigit with
    | '.' :: t =>
      let fs := t.takeWhile Char.isDigit
      if 2 ≤ fs.length ∧ boundaryAfter t 2 = true then
        some (intval + digitsToNat (fs.take 2))
      else if 1 ≤ fs.length ∧ boundaryAfter t 1 = true then
        some (intval + digitsToNat (fs.take 1) * 10)
      else some intval
    | c :: _ => if wordChar c then none else some intval
    | [] => some intval

/-- After a TIP head: `\s*\$?\s*` then the amount capture. -/
def attemptAmount (cs : List Char) : Option Nat :=
  let a := cs.dropWhile Char.isWhitespace
  let b := match a with | '$' :: t => t | _ => a
  parseAmount (b.dropWhile Char.isWhitespace)

/-- Scan for `\bTip` (case-insensitive, word boundary before) and try the
amount tail at each occurrence; first success wins, as `re.search` does. -/
def tipScan : Bool → List Char → Option Nat
  | _, [] => none
  | prev, c :: t =>
    (if !prev ∧ c.toUpper = 'T' then
      match t with
      | i :: p :: rest =>
        if i.toUpper = 'I' ∧ p.toUpper = 'P' then attemptAmount rest else none
      | _ => none
    else none).orElse (fun _ => tipScan (wordChar c) t)

/-- Embeds `tip_amount_from_text`: the captured amount, or 0 when the
pattern does not match. -/
def tip_amount_from_text (txt : String) : Nat :=
  match tipScan false txt.toList with
  | some q => q
  | none => 0

/-- Python `s.rstrip(".")`: drop every trailing dot. -/
def rstripDot (s : String) : String :=
  String.mk (((s.toList.reverse).dropWhile (fun c => c = '.')).reverse)

/-- Embeds `re.sub(r"\s{2,}", " ", cs)`: every run of two or more
whitespace characters collapses to one space; single whitespace characters
stay as they are. The fuel argument only forces structural recursion and
is always sufficient when it starts at the list length. -/
def collapseRunsF : Nat → List Char → List Char
  | 0, cs => cs
  | _, [] => []
  | fuel + 1, c :: t =>
    if c.isWhitespace then
      let run := t.takeWhile Char.isWhitespace
      let rest := t.dropWhile Char.isWhitespace
      (if run.length + 1 ≥ 2 then [' '] else [c]) ++ collapseRunsF fuel rest
    else c :: collapseRunsF fuel t

/-- The whitespace-run collapse with enough fuel. -/
def collapseRuns (cs : List Char) : List Char :=
  collapseRunsF cs.length cs

/-- Name normalization of the customer-name branch:
`re.sub(r"\s{2,}", " ", m.group(1).strip())`. -/
def normName (s : String) : String :=
  String.mk (collapseRuns (trimChars s.toList))

/-- Session timestamp bookkeeping: min into `first_ts`, max into `last_ts`. -/
def ts_step (s : Session) (ts : Option Nat) : Session :=
  match ts with
  | none => s
  | some t =>
    let s :=
      match s.first_ts with
      | none => { s with first_ts := some t }
      | some f => if t < f then { s with first_ts := some t } else s
    match s.last_ts with
    | none => { s with last_ts := some t }
    | some l => if t > l then { s with last_ts := some t } else s

/-- The invoice regexes in the order the code tries them:
inline invoice+payment, dispatcher, proceed-to-wash, generic, AWS-style. -/
def invoicePatterns (l : Line) : List (Option String) :=
  [l.invoiceInlinePay, l.doTxn, l.proceedInvoice, l.invoiceAny, l.invoiceAws]

/-- One pattern of the invoice-detection loop: a match is taken only while
no invoice is recorded yet and its capture is not the literal string 0. -/
def invStep (s : Session) (m : Option String) : Session :=
  match m, s.invoice with
  | some inv, none => if inv ≠ "0" then { s with invoice := some inv } else s
  | _, _ => s

/-- Embeds the invoice-detection loop of `parse_file`: each pattern in
order through `invStep`. -/
def invoice_step (s : Session) (l : Line) : Session :=
  (invoicePatterns l).foldl invStep s

/-- Embeds the unlimited-flag branch: a NEW match then a RECURRING match,
each through `set_unlimited`. -/
def unlimited_step (s : Session) (l : Line) : Session :=
  let s := if l.unlimitedNew then set_unlimited s UType.NEW l.ts else s
  if l.unlimitedRecur then set_unlimited s UType.RECURRING l.ts else s

/-- Embeds the customer-name and license-plate branches (first match
sticky via Python falsiness, name whitespace-collapsed, plate
upper-cased). -/
def name_plate_step (s : Session) (l : Line) : Session :=
  let s :=
    match l.customerName with
    | some m => if strFalsy s.customer_name then { s with customer_name := some (normName m) } else s
    | none => s
  match l.licensePlate with
  | some m => if strFalsy s.license_plate then { s with license_plate := some (strUpper (pyStrip m)) } else s
  | none => s

/-- Embeds the wash-package branch: needs both markers on the line, strips
the id and name (trailing dots dropped), and skips tip-text names; a hit
overwrites both fields. -/
def washpkg_step (s : Session) (l : Line) : Session :=
  if l.svcControl ∧ l.selService then
    match l.washPkg with
    | some (g1, g2) =>
      let pkg_id := pyStrip g1
      let pkg_name := rstripDot (pyStrip g2)
      if is_tip_text pkg_name then s
      else { s with wash_package_id := some pkg_id, wash_package_name := some pkg_name }
    | none => s
  else s

/-- Dict-style upsert on the addon map: an existing key is overwritten in
place, a new key is appended. -/
def addonUpsert (m : List (String × String × Option Nat)) (k : String)
    (v : String × Option Nat) : List (String × String × Option Nat) :=
  if m.any (fun p => p.1 == k) then
    m.map (fun p => if p.1 == k then (k, v) else p)
  else m ++ [(k, v)]

/-- Embeds the add-on branch: inside an optional-service line, a package
match with a nonempty name is recorded unless its id equals the main
package id or its name equals the main package name; a tip amount embedded
in the add-on name updates the tip, latest-timestamp-wins. -/
def addon_step (s : Session) (l : Line) : Session :=
  if l.selOptService then
    match l.washPkg with
    | some (g1, g2) =>
      let add_pkg_id := pyStrip g1
      let add_name := rstripDot (pyStrip g2)
      if add_name.isEmpty then s
      else if some add_pkg_id ≠ s.wash_package_id ∧ add_name ≠ (s.wash_package_name.getD "") then
        let s := { s with addon_map := addonUpsert s.addon_map add_pkg_id (add_name, l.ts) }
        let amt := tip_amount_from_text add_name
        if amt > 0 then
          if s.tip_ts = none ∨ optTsGE l.ts s.tip_ts = true then
            { s with tip_amount := amt, tip_ts := l.ts }
          else s
        else s
      else s
    | none => s
  else s

/-- Embeds the payment branch: both save-transaction markers present,
latest-timestamp-wins. -/
def payment_step (s : Session) (l : Line) : Session :=
  if l.saveTxns ∧ l.saveTxn then
    match l.paymentType with
    | some m =>
      if s.payment_type_ts = none ∨ optTsGE l.ts s.payment_type_ts = true then
        { s with payment_type := some (pyStrip m), payment_type_ts := l.ts }
      else s
    | none => s
  else s

/-- Embeds the image-path branch: first match sticky. -/
def image_step (s : Session) (l : Line) : Session :=
  match l.awsFile with
  | some m => if strFalsy s.image_path then { s with image_path := some (pyStrip m) } else s
  | none => s

/-- Embeds the discount / tax / total loop in its order: the combined
discount regex and the amount regex both write `discount_amount`, then tax,
then total; every match overwrites (latest wins). The loop never writes
`discount_code` — the code-capturing regex exists in the source but is
absent from this loop. -/
def money_step (s : Session) (l : Line) : Session :=
  let s := match l.discountBoth with
    | some p => { s with discount_amount := some p.2 }
    | none => s
  let s := match l.discountAmount with
    | some q => { s with discount_amount := some q }
    | none => s
  let s := match l.taxAmt with
    | some q => { s with tax := some q }
    | none => s
  match l.totalAmt with
  | some q => { s with total := some q }
  | none => s

/-- The session-close test of `parse_file`: proceed-to-wash plus
return-to-main, or transaction-methods plus reset-transaction. -/
def end_marker (l : Line) : Bool :=
  (l.proceedVM && l.returnMain) || (l.txnMethods && l.resetTxn)

/-- All per-line session updates of the loop body, in source order. -/
def update_session (s : Session) (l : Line) : Session :=
  money_step
    (image_step
      (payment_step
        (addon_step
          (washpkg_step
            (name_plate_step
              (unlimited_step
                (invoice_step (ts_step s l.ts) l) l) l) l) l) l) l) l

/-- Parser fold state: the closed sessions with their indices, the open
session, and the session counter. -/
structure ParseState where
  sessions : List (Session × Nat)
  sess : Option Session
  counter : Nat
deriving DecidableEq, Repr

/-- Embeds `end_session`: bump `last_ts` when the closing line is strictly
later, append the session with its index, reset the open session. -/
def end_session (st : ParseState) (ts : Option Nat) : ParseState :=
  match st.sess with
  | none => st
  | some s =>
    let s := if optTsGT ts s.last_ts then { s with last_ts := ts } else s
    ⟨st.sessions ++ [(s, st.counter)], none, st.counter + 1⟩

/-- Embeds one iteration of the line loop of `parse_file`: open a session
when none is open, run every update branch, close on an end-marker line. -/
def proc_line (st : ParseState) (l : Line) : ParseState :=
  let s0 := match st.sess with | none => new_session l.ts | some s => s
  let s1 := update_session s0 l
  if end_marker l then end_session ⟨st.sessions, some s1, st.counter⟩ l.ts
  else ⟨st.sessions, some s1, st.counter⟩

/-- The initial parser state. -/
def initState : ParseState := ⟨[], none, 0⟩

/-- Embeds the whole line loop. -/
def run_lines (ls : List Line) : ParseState :=
  ls.foldl proc_line initState

/-- The wash-type vocabulary of `WASH_TYPE_MAP`, in dict insertion order. -/
def WASH_TYPE_MAP : List (String × String) :=
  [("INTERIOR SUP", "Super"), ("BEST WASH", "Best"), ("BETTER WASH", "Better"),
   ("GOOD WASH", "Good"), ("BASIC WASH", "Basic")]

/-- The `ALLOWED_WASH_TYPES` set. -/
def ALLOWED_WASH_TYPES : List String := ["Basic", "Good", "Better", "Best", "Super"]

/-- Embeds `map_wash_type`: falsy names (null or empty) yield null;
otherwise the map is walked in insertion order and the first key contained
in the upper-cased name wins (the loop breaks); the result is kept only
when it lies in the allowed set. -/
def map_wash_type (name : Option String) : Option String :=
  match name with
  | none => none
  | some n =>
    if n.isEmpty then none
    else
      let up := strUpper n
      let mapped := WASH_TYPE_MAP.foldl
        (fun acc kv =>
          match acc with
          | some v => some v
          | none => if containsSub up kv.1 then some kv.2 else none) none
      match mapped with
      | some v => if ALLOWED_WASH_TYPES.contains v then some v else none
      | none => none

/-- One row destined for the `washify` table. -/
structure Row where
  bill : Nat
  wash_ts_first : Option Nat
  wash_ts_last : Option Nat
  license_plate : Option String
  customer_name : Option String
  wash_package_id : Option Nat
  wash_package_name : Option String
  wash_type : Option String
  payment_type : Option String
  image_path : Option String
  is_unlimited : Bool
  unlimited_type : Option UType
  addons : Option String
  tip_amount : Nat
  discount_code : Option String
  discount_amount : Option Nat
  tax : Option Nat
  total : Option Nat
  location : String
  source_file : String
  created_on : Nat
  created_at : Nat
  invoice_kind : String
deriving DecidableEq, Repr

/-- Sort key for add-on timestamps: a missing timestamp sorts first
(`datetime.min` in the source). -/
def optTsKey : Option Nat → Nat
  | none => 0
  | some n => n + 1

/-- Stable insertion into a list sorted by `optTsKey` of the timestamp:
the new element goes after equal keys, as Python stable sort keeps the
original order of ties. -/
def insSorted (x : String × Option Nat) : List (String × Option Nat) → List (String × Option Nat)
  | [] => [x]
  | y :: t => if optTsKey y.2 ≤ optTsKey x.2 then y :: insSorted x t else x :: y :: t

/-- Stable sort of the addon values by observation timestamp. -/
def sortAddons (vs : List (String × Option Nat)) : List (String × Option Nat) :=
  vs.foldl (fun acc v => insSorted v acc) []

/-- Embeds the row-construction pass of `parse_file` for one closed
session: sessions without a usable invoice are dropped; add-ons are sorted
by timestamp and joined; the classification kind falls out of the
unlimited flag and the session index. The clock parameters stand for
`now_cst_date` and `now_cst_time`. -/
def build_row (location source_file : String) (clockD clockT : Nat)
    (p : Session × Nat) : Option Row :=
  let s := p.1
  match s.invoice with
  | none => none
  | some inv =>
    if inv.isEmpty ∨ inv = "0" then none
    else
      let clean_addons := (sortAddons (s.addon_map.map (fun q => q.2))).map (fun q => q.1)
      let addons_text :=
        if clean_addons.isEmpty then none
        else some (String.intercalate "; " clean_addons)
      let kind :=
        if s.is_unlimited then (if p.2 = 0 then "SIGNUP" else "WASH") else "NORMAL"
      some
        { bill := digitsToNat inv.toList
          wash_ts_first := s.first_ts
          wash_ts_last := s.last_ts
          license_plate := s.license_plate
          customer_name := s.customer_name
          wash_package_id :=
            match s.wash_package_id with
            | some pid => if pid.isEmpty then none else some (digitsToNat pid.toList)
            | none => none
          wash_package_name := s.wash_package_name
          wash_type := map_wash_type s.wash_package_name
          payment_type := s.payment_type
          image_path := s.image_path
          is_unlimited := s.is_unlimited
          unlimited_type := s.unlimited_type
          addons := addons_text
          tip_amount := s.tip_amount
          discount_code := s.discount_code
          discount_amount := s.discount_amount
          tax := s.tax
          total := s.total
          location := location
          source_file := source_file
          created_on := clockD
          created_at := clockT
          invoice_kind := kind }

/-- Embeds `parse_file` on the already-line-split content: run the state
machine, then build one row per kept session. The location and source-file
name are the values the source derives from the file name. -/
def parse_file (location source_file : String) (clockD clockT : Nat)
    (ls : List Line) : List Row :=
  (run_lines ls).sessions.filterMap (build_row location source_file clockD clockT)

/-- Dict-style dedup of `main`: keyed by `(bill, source_file)`, a later row
overwrites in place. -/
def dedupRows (rows : List Row) : List Row :=
  rows.foldl
    (fun acc r =>
      if acc.any (fun x => x.bill == r.bill && x.source_file == r.source_file) then
        acc.map (fun x => if x.bill == r.bill && x.source_file == r.source_file then r else x)
      else acc ++ [r]) []

/-- The `washify` table, keyed by `bill`. -/
def WStore : Type := Nat → Option Row

/-- One `UPSERT_SQL` execution: `INSERT ... ON CONFLICT (bill) DO UPDATE`
replaces every column of the conflicting row with the new values. -/
def upsert1 (st : WStore) (r : Row) : WStore :=
  fun b => if b = r.bill then some r else st b

/-- Embeds `batch_upsert`: the upsert statement once per row, in order. -/
def batch_upsert (st : WStore) (rows : List Row) : WStore :=
  rows.foldl upsert1 st

/-- Embeds one kiosk run of `main` on a single downloaded file: parse,
dedup, upsert. -/
def kiosk_run (location source_file : String) (clockD clockT : Nat)
    (ls : List Line) (st : WStore) : WStore :=
  batch_upsert st (dedupRows (parse_file location source_file clockD clockT ls))

/-! ## RTC pipeline (`upload_from_rtc.py`) -/

/-- One parsed RTC entry; only the wash id and the direction drive the
persistence control flow (the other columns are payload copied into the
insert). -/
structure RtcEvent where
  wash_id : String
  direction : String
deriving DecidableEq, Repr

/-- Outcome of the RTC insertion loop: the wash ids in storage afterwards,
the zero-based positions that were existence-checked, the positions whose
insert ran successfully, and whether any insert raised. -/
structure RtcResult where
  store : List String
  checked : List Nat
  insertedIdx : List Nat
  anyInsertError : Bool
deriving DecidableEq, Repr

/-- The `SELECT 1 FROM rtc_log WHERE wash_id = ...` existence check. -/
def rtcExists (st : List String) (wid : String) : Bool :=
  st.any (fun w => w == wid)

/-- Embeds the insertion loop of the RTC `main`: before each event the loop
breaks when two consecutive existing entries were seen; an existing id
bumps the consecutive counter and skips the insert; a fresh id resets the
counter and is inserted, a raising insert being caught and skipped.
`orc i = true` means the insert of the event at position `i` raises. -/
def rtc_loop (orc : Nat → Bool) : List RtcEvent → List String → Nat → Nat → RtcResult
  | [], st, _, _ => ⟨st, [], [], false⟩
  | e :: rest, st, consec, idx =>
    if consec ≥ 2 then ⟨st, [], [], false⟩
    else
      if rtcExists st e.wash_id then
        let r := rtc_loop orc rest st (consec + 1) (idx + 1)
        ⟨r.store, idx :: r.checked, r.insertedIdx, r.anyInsertError⟩
      else if orc idx then
        let r := rtc_loop orc rest st 0 (idx + 1)
        ⟨r.store, idx :: r.checked, r.insertedIdx, true⟩
      else
        let r := rtc_loop orc rest (e.wash_id :: st) 0 (idx + 1)
        ⟨r.store, idx :: r.checked, idx :: r.insertedIdx, r.anyInsertError⟩

/-- Outcome of one RTC `main` run on a downloaded file. -/
structure RtcRun where
  result : RtcResult
  deleted : Bool
  quarantined : Bool
deriving DecidableEq, Repr

/-- Embeds the RTC `main` after parsing: keep only recv-direction entries;
with none, quarantine the file and do not delete; otherwise run the
insertion loop and then delete the source object unconditionally — the
delete statement follows the loop whatever happened inside it. -/
def rtc_main (orc : Nat → Bool) (entries : List RtcEvent) (st : List String) : RtcRun :=
  let recv := entries.filter (fun e => e.direction == "recv")
  if recv.isEmpty then ⟨⟨st, [], [], false⟩, false, true⟩
  else ⟨rtc_loop orc recv st 0 0, true, false⟩

/-! ## Claim-level definitions

Spec-side comparison definitions (each marked as modelled from the spec
wording), specification-style reformulations used to state theorems, and
the concrete inputs of the counterexamples and witnesses. -/

/-- First-wins merge on optional values. -/
def mergeInv : Option String → Option String → Option String
  | some v, _ => some v
  | none, b => b

/-- The first capture in a pattern list that is not the literal string 0. -/
def first_invoice_pats : List (Option String) → Option String
  | [] => none
  | m :: rest =>
    match m with
    | some v => if v ≠ "0" then some v else first_invoice_pats rest
    | none => first_invoice_pats rest

/-- Scan a line sequence for the first line yielding a usable invoice under
a given pattern order; the first hit wins and later lines are ignored. -/
def invoice_scan_with (order : Line → List (Option String)) : List Line → Option String
  | [] => none
  | l :: rest =>
    match first_invoice_pats (order l) with
    | some v => some v
    | none => invoice_scan_with order rest

/-- Modelled from the spec: the priority order the claim states —
inline invoice+payment, proceed-to-wash, dispatcher, generic, AWS-style
(the source tries the dispatcher pattern before the proceed-to-wash one). -/
def claim_invoice_patterns (l : Line) : List (Option String) :=
  [l.invoiceInlinePay, l.proceedInvoice, l.doTxn, l.invoiceAny, l.invoiceAws]

/-- The open-session evolution of the parser across lines that close no
session: each line updates the session, opening a fresh one first when
none is open. -/
def sessAfter : Option Session → List Line → Option Session
  | os, [] => os
  | os, l :: rest =>
    sessAfter (some (update_session (match os with | none => new_session l.ts | some s => s) l)) rest

/-- The unlimited outcome the tie-break law promises. -/
def recurringProp (s : Session) : Prop :=
  s.is_unlimited = true ∧ s.unlimited_type = some UType.RECURRING

/-- The invoice of a possibly-open session (`none` when no session is
open). -/
def ivOf : Option Session → Option String
  | none => none
  | some s => s.invoice

/-- All indices of lines containing a pattern, in increasing order. -/
def matching_idxs (lines : List String) (pat : String) : List Nat :=
  (List.range lines.length).filter (fun i => containsSub (lines.getD i "") pat)

/-- Modelled from the spec: the start index as the claim states it — if a
most recently persisted loader record exists, take the last line index
containing its `Invoice Id <bill>` marker, aligned down to the block
boundary; whole file otherwise. No special case for bill 0. -/
def claim_start_index (lines : List String) (table : List LoaderRec) : Nat :=
  match get_last_processed_bill table with
  | none => 0
  | some b =>
    match (matching_idxs lines ("Invoice Id " ++ toString b)).getLast? with
    | some idx => idx - idx % 4
    | none => 0

/-- The amended start index: as above, except that a last record whose
bill is 0 behaves like an empty table, because Python truthiness treats
the integer 0 like None. -/
def claim_start_index_amended (lines : List String) (table : List LoaderRec) : Nat :=
  match get_last_processed_bill table with
  | none => 0
  | some b =>
    if b = 0 then 0
    else
      match (matching_idxs lines ("Invoice Id " ++ toString b)).getLast? with
      | some idx => idx - idx % 4
      | none => 0

/-- Modelled from the spec: wash-type mapping by longest contained key —
of the vocabulary keys contained in the upper-cased name, the longest one
decides; null or unmatched names yield null. -/
def map_wash_type_longest (name : Option String) : Option String :=
  match name with
  | none => none
  | some n =>
    if n.isEmpty then none
    else
      let up := strUpper n
      let hits := WASH_TYPE_MAP.filter (fun kv => containsSub up kv.1)
      (hits.foldl
        (fun acc kv =>
          match acc with
          | none => some kv
          | some best => if kv.1.length > best.1.length then some kv else some best) none).map
        Prod.snd

/-- The last row of a list carrying a given bill (later rows win). -/
def lookupLastRow (rows : List Row) (b : Nat) : Option Row :=
  rows.foldl (fun acc r => if r.bill = b then some r else acc) none

/-- How a super-table row may relate to its updated self across a loader
run: a change forces an FRA row whose status was below 3, location never
changes, and a row at status 3 or above never changes. -/
def superRel (a b : SuperRow) : Prop :=
  (b ≠ a → a.location = "FRA" ∧ status_lt3 a.status = true) ∧
  b.location = a.location ∧
  (status_lt3 a.status = false → b = a)

/-- How a tunnel-table row may relate to its updated self across a loader
run: a change forces an FRA row, and location never changes. -/
def tunnelRel (a b : TunnelRow) : Prop :=
  (b ≠ a → a.location = "FRA") ∧ b.location = a.location

/-- The frame relation a loader run maintains between the incoming store
and the current store: the super and tunnel tables keep their lengths and
relate row by row. -/
def storeRel (s0 cur : LoaderStore) : Prop :=
  s0.super.length = cur.super.length ∧
  s0.tunnel.length = cur.tunnel.length ∧
  (∀ i a b, s0.super.get? i = some a → cur.super.get? i = some b → superRel a b) ∧
  (∀ i a b, s0.tunnel.get? i = some a → cur.tunnel.get? i = some b → tunnelRel a b)

/-! ### Concrete inputs for counterexamples and witnesses -/

/-- A kiosk line whose content matches both the dispatcher pattern
(capturing 123) and the proceed-to-wash pattern (capturing 456) — realized
by a raw line such as
`DoTransactionAfterDispatcher 123 ProceedToCarWashViewModel InvoiceID 456`
(the generic and AWS patterns then also capture 456). -/
def invLineA : Line :=
  { emptyLine with doTxn := some "123", proceedInvoice := some "456", invoiceAny := some "456", invoiceAws := some "456" }

/-- A session-closing kiosk line (transaction-methods plus
reset-transaction markers). -/
def closeLine : Line := { emptyLine with txnMethods := true, resetTxn := true }

/-- A kiosk line carrying an invoice and a discount with both code and
amount — realized by a raw line such as
`InvoiceID 55019 ... Discount: SAVE10 $5.00`. -/
def discLine : Line :=
  { emptyLine with invoiceAny := some "55019", discountBoth := some ("SAVE10", 500) }

/-- A line carrying only the RECURRING marker. -/
def recurLine : Line := { emptyLine with unlimitedRecur := true, ts := some 5 }

/-- A line carrying only the NEW CUSTOMER marker, later than `recurLine`. -/
def newLine : Line := { emptyLine with unlimitedNew := true, ts := some 9 }

/-- An oracle under which every database statement succeeds. -/
def okOracle : LoaderOracle := ⟨fun _ => false, fun _ => false, fun _ => false⟩

/-- An oracle under which every loader-log insert raises. -/
def insOracle : LoaderOracle := ⟨fun _ => true, fun _ => false, fun _ => false⟩

/-- A well-formed 4-line loader block for bill 55019. -/
def goodLines : List String :=
  ["11/04/2025 09:15:02 AM,junk", "foo Invoice Id 55019", "zz", "bar Invoice Id 55020"]

/-- Four lines whose first line has no parsable timestamp. -/
def badLines : List String := ["x", "y", "z", "w"]

/-- A store whose super and tunnel tables hold one FRA row for bill 55019. -/
def fraStore : LoaderStore :=
  ⟨[], [⟨55019, "11/04/2025", "FRA", none, none, none⟩],
   [⟨55019, "11/04/2025", "FRA", false, none⟩]⟩

/-- A loader-log table whose only (hence latest) record has bill 0. -/
def zeroBillTable : List LoaderRec := [⟨0, 7, "2025-01-01", "00:00:00"⟩]

/-- Lines whose index-4 line contains the `Invoice Id 0` marker. -/
def zeroBillLines : List String :=
  ["a", "b", "c", "d", "xx Invoice Id 0 yy", "f", "g", "h"]

/-- Five recv events; the third and fourth ids are the ones already in
storage below. -/
def fiveRecv : List RtcEvent :=
  [⟨"a", "recv"⟩, ⟨"b", "recv"⟩, ⟨"x", "recv"⟩, ⟨"y", "recv"⟩, ⟨"c", "recv"⟩]

/-- Storage already holding the ids of positions 3 and 4 of `fiveRecv`. -/
def xyStore : List String := ["x", "y"]

/-! ## Helper lemmas -/

/-- A last-wins fold from any accumulator factors through the fold from
`none`. -/
theorem upsertAux (b : Nat) :
    ∀ (rows : List Row) (a : Option Row),
      rows.foldl (fun acc x => if x.bill = b then some x else acc) a =
        match rows.foldl (fun acc x => if x.bill = b then some x else acc) none with
        | some y => some y
        | none => a := by
  intro rows
  induction rows with
  | nil => intro a; rfl
  | cons x rows ih =>
    intro a
    show rows.foldl _ (if x.bill = b then some x else a) = _
    rw [ih (if x.bill = b then some x else a)]
    have hr : (x :: rows).foldl (fun acc x => if x.bill = b then some x else acc) none =
        rows.foldl (fun acc x => if x.bill = b then some x else acc) (if x.bill = b then some x else none) := rfl
    rw [hr, ih (if x.bill = b then some x else none)]
    cases rows.foldl (fun acc x => if x.bill = b then some x else acc) none with
    | none => by_cases hx : x.bill = b <;> simp [hx]
    | some y => rfl

/-- Pointwise value of `batch_upsert`: the last row of the batch with the
queried bill, else the prior table content. -/
theorem batch_upsert_eval :
    ∀ (rows : List Row) (st : WStore) (b : Nat),
      batch_upsert st rows b =
        match lookupLastRow rows b with
        | some r => some r
        | none => st b := by
  intro rows
  induction rows with
  | nil => intro st b; rfl
  | cons r rows ih =>
    intro st b
    show batch_upsert (upsert1 st r) rows b = _
    rw [ih]
    have hr : lookupLastRow (r :: rows) b =
        rows.foldl (fun acc x => if x.bill = b then some x else acc) (if r.bill = b then some r else none) := rfl
    rw [hr, upsertAux b rows (if r.bill = b then some r else none)]
    have : lookupLastRow rows b = rows.foldl (fun acc x => if x.bill = b then some x else acc) none := rfl
    rw [← this]
    cases lookupLastRow rows b with
    | none =>
      by_cases hx : r.bill = b
      · simp [hx, upsert1]
      · simp [hx, upsert1, fun h => hx (Eq.symm h)]
        intro h
        exact absurd (Eq.symm h) hx
    | some y => rfl

/-! ## Claim theorems -/

/-- C9: running the kiosk parse-and-persist step twice on the same
unmodified input (same lines, same clock readings) leaves exactly the
stored row set of a single run — the second run upserts, keyed by bill,
identical values over each existing row. -/
theorem kiosk_run_idempotent (location source_file : String) (clockD clockT : Nat)
    (ls : List Line) (st : WStore) :
    kiosk_run location source_file clockD clockT ls
        (kiosk_run location source_file clockD clockT ls st) =
      kiosk_run location source_file clockD clockT ls st := by
  funext b
  show batch_upsert (batch_upsert st _) _ b = batch_upsert st _ b
  rw [batch_upsert_eval, batch_upsert_eval]
  cases lookupLastRow (dedupRows (parse_file location source_file clockD clockT ls)) b with
  | none => rfl
  | some r => rfl

/-- C8: on a session whose line carries a discount with both code and
amount (raw text `Discount: SAVE10 $5.00`), the parser emits a row whose
discount amount is 5.00 but whose discount code is null — the
code-capturing regex is never consulted by the parse loop. -/
theorem discount_code_never_captured :
    (parse_file "FRA" "f.txt" 1 2 [discLine, closeLine]).map
        (fun r => (r.bill, r.discount_code, r.discount_amount)) =
      [(55019, none, some 500)] := rfl

/-- C1 counterexample: an RTC run in which the single recv event's insert
raises still deletes the source file — deletion is not gated on per-unit
success in the RTC pipeline. -/
theorem rtc_deletes_despite_error :
    (rtc_main (fun _ => true) [⟨"w1", "recv"⟩] []).result.anyInsertError = true ∧
      (rtc_main (fun _ => true) [⟨"w1", "recv"⟩] []).deleted = true := by
  constructor <;> rfl

/-- C2 counterexample: on a well-formed block whose loader_log insert
raises, neither the super update nor the tunnel update is attempted —
the three statements are not independent failure domains. -/
theorem insert_failure_skips_updates :
    ((process_file insOracle ⟨[], [], []⟩ goodLines).reports.map
        (fun r => (r.insertAttempted, r.insertOk, r.superAttempted, r.tunnelAttempted))) =
      [(true, false, false, false)] := rfl

/-- C5 counterexample: with a latest loader record of bill 0 and a file
whose `Invoice Id 0` marker sits at index 4, the source starts at index 0
(Python truthiness of the integer 0), not at the aligned boundary 4 the
claim dictates. -/
theorem zero_bill_skips_tail_seek :
    start_index zeroBillLines (get_last_processed_bill zeroBillTable) ≠
        claim_start_index zeroBillLines zeroBillTable ∧
      start_index zeroBillLines (get_last_processed_bill zeroBillTable) = 0 ∧
      claim_start_index zeroBillLines zeroBillTable = 4 := by
  refine ⟨?_, rfl, rfl⟩
  have h1 : start_index zeroBillLines (get_last_processed_bill zeroBillTable) = 0 := rfl
  have h2 : claim_start_index zeroBillLines zeroBillTable = 4 := rfl
  rw [h1, h2]
  omega

/-- C7 counterexample: a name containing both BEST WASH and BETTER WASH
maps to Best (first key in insertion order), while longest-match-wins
dictates Better. -/
theorem wash_type_not_longest_match :
    map_wash_type (some "BEST WASH BETTER WASH") ≠
        map_wash_type_longest (some "BEST WASH BETTER WASH") ∧
      map_wash_type (some "BEST WASH BETTER WASH") = some "Best" ∧
      map_wash_type_longest (some "BEST WASH BETTER WASH") = some "Better" := by
  refine ⟨?_, rfl, rfl⟩
  have h1 : map_wash_type (some "BEST WASH BETTER WASH") = some "Best" := rfl
  have h2 : map_wash_type_longest (some "BEST WASH BETTER WASH") = some "Better" := rfl
  rw [h1, h2]
  decide

/-- C3 counterexample: on a line matching both the dispatcher pattern
(capturing 123) and the proceed-to-wash pattern (capturing 456), the
parser records 123, while the priority order the claim states would pick
456 — dispatcher is tried before proceed-to-wash in the source. -/
theorem invoice_priority_not_as_claimed :
    ((run_lines [invLineA, closeLine]).sessions.map (fun p => p.1.invoice)) ≠
        [invoice_scan_with claim_invoice_patterns [invLineA, closeLine]] ∧
      ((run_lines [invLineA, closeLine]).sessions.map (fun p => p.1.invoice)) = [some "123"] ∧
      invoice_scan_with claim_invoice_patterns [invLineA, closeLine] = some "456" := by
  refine ⟨?_, rfl, rfl⟩
  have h1 : ((run_lines [invLineA, closeLine]).sessions.map (fun p => p.1.invoice)) = [some "123"] := rfl
  have h2 : invoice_scan_with claim_invoice_patterns [invLineA, closeLine] = some "456" := rfl
  rw [h1, h2]
  decide

/-- A loader run deletes its file exactly when the block loop reported no
error. -/
theorem process_file_deleted_eq (orc : LoaderOracle) (st : LoaderStore) (lines : List String) :
    (process_file orc st lines).deleted =
      (process_file orc st lines).reports.all (fun rep => !rep.errored) := rfl

/-- C1 (amended): in the loader pipeline, deletion of the source file is
gated on every block succeeding — any per-block parsing or persistence
error suppresses deletion; the RTC pipeline however deletes its source
file after the insertion loop whenever any recv entries exist, whether or
not an event insert failed (the kiosk pipeline deletes only after its
whole-file upsert returns). -/
theorem deletion_gating :
    (∀ (orc : LoaderOracle) (st : LoaderStore) (lines : List String),
        ∀ r ∈ (process_file orc st lines).reports, r.errored = true →
          (process_file orc st lines).deleted = false) ∧
      (∀ (rorc : Nat → Bool) (entries : List RtcEvent) (rst : List String),
          (entries.filter (fun e => e.direction == "recv")).isEmpty = false →
          (rtc_main rorc entries rst).deleted = true) := by
  constructor
  · intro orc st lines r hmem herr
    rw [process_file_deleted_eq]
    cases hall : (process_file orc st lines).reports.all (fun rep => !rep.errored) with
    | false => rfl
    | true =>
      exfalso
      have hx := List.all_eq_true.mp hall r hmem
      rw [herr] at hx
      simp at hx
  · intro rorc entries rst hne
    simp only [rtc_main, hne]
    rfl

/-- Witness for C1: a loader file whose single block fails to parse is not
deleted; an RTC file with one recv entry is deleted. -/
theorem deletion_gating_witness :
    (process_file okOracle ⟨[], [], []⟩ badLines).deleted = false ∧
      (rtc_main (fun _ => true) [⟨"w1", "recv"⟩] []).deleted = true :=
  ⟨deletion_gating.1 okOracle ⟨[], [], []⟩ badLines
      ⟨0, false, false, false, false, false, false, false, false, true⟩ (by decide) rfl,
    deletion_gating.2 (fun _ => true) [⟨"w1", "recv"⟩] [] (by decide)⟩

/-- A consecutive-duplicate counter at 2 stops the RTC loop at once. -/
theorem rtc_loop_break (orc : Nat → Bool) (evs : List RtcEvent) (st : List String)
    (consec idx : Nat) (h : consec ≥ 2) :
    rtc_loop orc evs st consec idx = ⟨st, [], [], false⟩ := by
  cases evs with
  | nil => rfl
  | cons e rest => simp [rtc_loop, h]

/-- Storage only ever grows during the RTC loop, so an existence test
stays true under an extra inserted id. -/
theorem rtcExists_cons (v : String) (st : List String) (w : String)
    (h : rtcExists st w = true) : rtcExists (v :: st) w = true := by
  simp only [rtcExists, List.any_cons, Bool.or_eq_true]
  exact Or.inr h

/-- Bounds on an all-quantified list transfer along a larger bound. -/
theorem all_le_mono {l : List Nat} {a b : Nat}
    (h : (l.all (fun j => decide (j ≤ a))) = true) (hab : a ≤ b) :
    (l.all (fun j => decide (j ≤ b))) = true := by
  rw [List.all_eq_true] at h ⊢
  intro j hj
  have hx := h j hj
  simp only [decide_eq_true_eq] at hx ⊢
  omega

/-- Unfolding of the RTC loop on an event whose id already exists. -/
theorem rtc_loop_exists_step (orc : Nat → Bool) (x : RtcEvent) (rest : List RtcEvent)
    (st : List String) (consec idx : Nat) (h2 : ¬consec ≥ 2)
    (hex : rtcExists st x.wash_id = true) :
    rtc_loop orc (x :: rest) st consec idx =
      ⟨(rtc_loop orc rest st (consec + 1) (idx + 1)).store,
       idx :: (rtc_loop orc rest st (consec + 1) (idx + 1)).checked,
       (rtc_loop orc rest st (consec + 1) (idx + 1)).insertedIdx,
       (rtc_loop orc rest st (consec + 1) (idx + 1)).anyInsertError⟩ := by
  conv_lhs => rw [rtc_loop]
  rw [if_neg h2, if_pos hex]

/-- Unfolding of the RTC loop on a fresh event whose insert raises. -/
theorem rtc_loop_fresh_fail_step (orc : Nat → Bool) (x : RtcEvent) (rest : List RtcEvent)
    (st : List String) (consec idx : Nat) (h2 : ¬consec ≥ 2)
    (hex : rtcExists st x.wash_id = false) (horc : orc idx = true) :
    rtc_loop orc (x :: rest) st consec idx =
      ⟨(rtc_loop orc rest st 0 (idx + 1)).store,
       idx :: (rtc_loop orc rest st 0 (idx + 1)).checked,
       (rtc_loop orc rest st 0 (idx + 1)).insertedIdx, true⟩ := by
  conv_lhs => rw [rtc_loop]
  rw [if_neg h2, if_neg (by simp [hex] : ¬rtcExists st x.wash_id = true), if_pos horc]

/-- Unfolding of the RTC loop on a fresh event whose insert succeeds. -/
theorem rtc_loop_fresh_ok_step (orc : Nat → Bool) (x : RtcEvent) (rest : List RtcEvent)
    (st : List String) (consec idx : Nat) (h2 : ¬consec ≥ 2)
    (hex : rtcExists st x.wash_id = false) (horc : orc idx = false) :
    rtc_loop orc (x :: rest) st consec idx =
      ⟨(rtc_loop orc rest (x.wash_id :: st) 0 (idx + 1)).store,
       idx :: (rtc_loop orc rest (x.wash_id :: st) 0 (idx + 1)).checked,
       idx :: (rtc_loop orc rest (x.wash_id :: st) 0 (idx + 1)).insertedIdx,
       (rtc_loop orc rest (x.wash_id :: st) 0 (idx + 1)).anyInsertError⟩ := by
  conv_lhs => rw [rtc_loop]
  rw [if_neg h2, if_neg (by simp [hex] : ¬rtcExists st x.wash_id = true),
    if_neg (by simp [horc] : ¬orc idx = true)]

/-- Core of the RTC early stop: when two adjacent recv events carry ids
already in storage at run start, every existence-checked position and
every inserted position lies at or before the second of them. -/
theorem rtc_loop_stop (orc : Nat → Bool) (e f : RtcEvent) (post : List RtcEvent) :
    ∀ (pre : List RtcEvent) (st : List String) (consec idx : Nat),
      rtcExists st e.wash_id = true → rtcExists st f.wash_id = true →
      ((rtc_loop orc (pre ++ e :: f :: post) st consec idx).checked.all
          (fun j => decide (j ≤ idx + pre.length + 1))) = true ∧
        ((rtc_loop orc (pre ++ e :: f :: post) st consec idx).insertedIdx.all
          (fun j => decide (j ≤ idx + pre.length + 1))) = true := by
  intro pre
  induction pre with
  | nil =>
    intro st consec idx he hf
    by_cases h2 : consec ≥ 2
    · rw [List.nil_append, rtc_loop_break orc _ st consec idx h2]
      exact ⟨rfl, rfl⟩
    · rw [List.nil_append, rtc_loop_exists_step orc e (f :: post) st consec idx h2 he]
      by_cases h3 : consec + 1 ≥ 2
      · rw [rtc_loop_break orc (f :: post) st (consec + 1) (idx + 1) h3]
        refine ⟨?_, rfl⟩
        simp only [List.all_cons, List.all_nil, Bool.and_true, decide_eq_true_eq,
          List.length_nil]
        omega
      · rw [rtc_loop_exists_step orc f post st (consec + 1) (idx + 1) h3 hf,
          rtc_loop_break orc post st (consec + 1 + 1) (idx + 1 + 1) (by omega)]
        refine ⟨?_, rfl⟩
        simp only [List.all_cons, List.all_nil, Bool.and_true, Bool.and_eq_true,
          decide_eq_true_eq, List.length_nil]
        omega
  | cons p pre ih =>
    intro st consec idx he hf
    by_cases h2 : consec ≥ 2
    · rw [List.cons_append, rtc_loop_break orc _ st consec idx h2]
      exact ⟨rfl, rfl⟩
    · rw [List.cons_append]
      by_cases hex : rtcExists st p.wash_id = true
      · rw [rtc_loop_exists_step orc p _ st consec idx h2 hex]
        obtain ⟨ihc, ihi⟩ := ih st (consec + 1) (idx + 1) he hf
        constructor
        · simp only [List.all_cons, Bool.and_eq_true, decide_eq_true_eq, List.length_cons]
          exact ⟨by omega, by
            have := all_le_mono ihc (show idx + 1 + pre.length + 1 ≤ idx + (pre.length + 1) + 1 by omega)
            simpa using this⟩
        · have := all_le_mono ihi (show idx + 1 + pre.length + 1 ≤ idx + (p :: pre).length + 1 by
            simp only [List.length_cons]; omega)
          simpa using this
      · have hex2 : rtcExists st p.wash_id = false := by
          cases hx : rtcExists st p.wash_id with
          | false => rfl
          | true => exact absurd hx hex
        by_cases horc : orc idx = true
        · rw [rtc_loop_fresh_fail_step orc p _ st consec idx h2 hex2 horc]
          obtain ⟨ihc, ihi⟩ := ih st 0 (idx + 1) he hf
          constructor
          · simp only [List.all_cons, Bool.and_eq_true, decide_eq_true_eq, List.length_cons]
            exact ⟨by omega, by
              have := all_le_mono ihc (show idx + 1 + pre.length + 1 ≤ idx + (pre.length + 1) + 1 by omega)
              simpa using this⟩
          · have := all_le_mono ihi (show idx + 1 + pre.length + 1 ≤ idx + (p :: pre).length + 1 by
              simp only [List.length_cons]; omega)
            simpa using this
        · have horc2 : orc idx = false := by
            cases hx : orc idx with
            | false => rfl
            | true => exact absurd hx horc
          rw [rtc_loop_fresh_ok_step orc p _ st consec idx h2 hex2 horc2]
          obtain ⟨ihc, ihi⟩ := ih (p.wash_id :: st) 0 (idx + 1)
            (rtcExists_cons _ _ _ he) (rtcExists_cons _ _ _ hf)
          constructor
          · simp only [List.all_cons, Bool.and_eq_true, decide_eq_true_eq, List.length_cons]
            exact ⟨by omega, by
              have := all_le_mono ihc (show idx + 1 + pre.length + 1 ≤ idx + (pre.length + 1) + 1 by omega)
              simpa using this⟩
          · simp only [List.all_cons, Bool.and_eq_true, decide_eq_true_eq, List.length_cons]
            exact ⟨by omega, by
              have := all_le_mono ihi (show idx + 1 + pre.length + 1 ≤ idx + (pre.length + 1) + 1 by omega)
              simpa using this⟩

/-- C4: once two adjacent recv events in file order carry wash ids already
present in storage, no later position of the recv sequence is
existence-checked or inserted by the RTC run — the insertion loop stops
entirely after the second of the pair. -/
theorem rtc_early_stop (orc : Nat → Bool) (entries : List RtcEvent) (st : List String)
    (pre post : List RtcEvent) (e f : RtcEvent)
    (hsplit : entries.filter (fun x => x.direction == "recv") = pre ++ e :: f :: post)
    (he : rtcExists st e.wash_id = true) (hf : rtcExists st f.wash_id = true) :
    ((rtc_main orc entries st).result.checked.all
        (fun j => decide (j ≤ pre.length + 1))) = true ∧
      ((rtc_main orc entries st).result.insertedIdx.all
        (fun j => decide (j ≤ pre.length + 1))) = true := by
  have hne : (entries.filter (fun x => x.direction == "recv")).isEmpty = false := by
    rw [hsplit]
    cases pre <;> rfl
  have hmain : (rtc_main orc entries st).result =
      rtc_loop orc (entries.filter (fun x => x.direction == "recv")) st 0 0 := by
    simp only [rtc_main, hne]
    rfl
  rw [hmain, hsplit]
  have := rtc_loop_stop orc e f post pre st 0 0 he hf
  simpa using this

/-- Witness for C4: five ordered recv events whose third and fourth ids
already exist in storage; every checked or inserted position is at most 3,
so position 5 (index 4) is never evaluated. -/
theorem rtc_early_stop_witness :
    ((rtc_main (fun _ => false) fiveRecv xyStore).result.checked.all
        (fun j => decide (j ≤ 3))) = true ∧
      ((rtc_main (fun _ => false) fiveRecv xyStore).result.insertedIdx.all
        (fun j => decide (j ≤ 3))) = true := by
  have := rtc_early_stop (fun _ => false) fiveRecv xyStore
    [⟨"a", "recv"⟩, ⟨"b", "recv"⟩] [⟨"c", "recv"⟩] ⟨"x", "recv"⟩ ⟨"y", "recv"⟩
    (by decide) (by decide) (by decide)
  simpa using this

/-- The backward scan of the tail seek finds exactly the greatest matching
index: it equals the last element of the increasing list of matching
indices. -/
theorem seekBack_eq_getLast (lines : List String) (pat : String) :
    ∀ n : Nat,
      seekBack lines pat n =
        ((List.range n).filter (fun i => containsSub (lines.getD i "") pat)).getLast? := by
  intro n
  induction n with
  | zero => rfl
  | succ n ih =>
    rw [List.range_succ, List.filter_append]
    by_cases h : containsSub (lines.getD n "") pat = true
    · have h1 : List.filter (fun i => containsSub (lines.getD i "") pat) [n] = [n] := by
        simp only [List.filter_cons, List.filter_nil]
        rw [if_pos h]
      rw [h1, List.getLast?_concat]
      show (if containsSub (lines.getD n "") pat then some n else seekBack lines pat n) = some n
      rw [if_pos h]
    · have h1 : List.filter (fun i => containsSub (lines.getD i "") pat) [n] = [] := by
        simp only [List.filter_cons, List.filter_nil]
        rw [if_neg h]
      rw [h1, List.append_nil]
      show (if containsSub (lines.getD n "") pat then some n else seekBack lines pat n) = _
      rw [if_neg h]
      exact ih

/-- C5 (amended): the loader start index is exactly what the claim states,
except that a latest record whose bill is 0 behaves like an empty table
(Python truthiness): when the most recent loader record exists with a
nonzero bill, the scan starts at the aligned block boundary of the last
line containing its marker, and otherwise (no record, bill 0, or no
matching line) the whole file is processed from index 0. -/
theorem start_index_characterization (lines : List String) (table : List LoaderRec) :
    start_index lines (get_last_processed_bill table) =
      claim_start_index_amended lines table := by
  cases hcase : get_last_processed_bill table with
  | none => simp [start_index, claim_start_index_amended, hcase]
  | some b =>
    simp only [start_index, claim_start_index_amended, matching_idxs, hcase]
    by_cases hb : b = 0
    · rw [if_pos hb, if_pos hb]
    · rw [if_neg hb, if_neg hb, ← seekBack_eq_getLast]

/-- A keep-first fold over the wash-type vocabulary from a hit stays at
that hit. -/
theorem washFoldFixed (up : String) (v : String) :
    ∀ l : List (String × String),
      (l.foldl (fun acc kv =>
        match acc with
        | some w => some w
        | none => if containsSub up kv.1 then some kv.2 else none) (some v)) = some v := by
  intro l
  induction l with
  | nil => rfl
  | cons kv l ih => exact ih

/-- The keep-first fold over the vocabulary is the first hit of `find?`. -/
theorem washFold_eq_find (up : String) :
    ∀ l : List (String × String),
      (l.foldl (fun acc kv =>
        match acc with
        | some w => some w
        | none => if containsSub up kv.1 then some kv.2 else none) none) =
        (l.find? (fun kv => containsSub up kv.1)).map Prod.snd := by
  intro l
  induction l with
  | nil => rfl
  | cons kv l ih =>
    by_cases h : containsSub up kv.1 = true
    · have hf : List.find? (fun kv => containsSub up kv.1) (kv :: l) = some kv := by
        simp [List.find?_cons, h]
      rw [hf]
      show l.foldl _ (if containsSub up kv.1 then some kv.2 else none) = _
      rw [if_pos h, washFoldFixed]
      rfl
    · have hf : List.find? (fun kv => containsSub up kv.1) (kv :: l) =
          List.find? (fun kv => containsSub up kv.1) l := by
        simp [List.find?_cons, h]
      rw [hf]
      show l.foldl _ (if containsSub up kv.1 then some kv.2 else none) = _
      rw [if_neg h]
      exact ih

/-- C7 (amended): the wash type of a non-null nonempty package name is the
value of the first vocabulary key — in the fixed insertion order
INTERIOR SUP, BEST WASH, BETTER WASH, GOOD WASH, BASIC WASH — contained in
the upper-cased name (first match wins, not longest match); a null name,
an empty name, or a name containing no key yields a null type, never a
guessed one. -/
theorem map_wash_type_first_match :
    (∀ name : String,
        map_wash_type (some name) =
          if name.isEmpty then none
          else (WASH_TYPE_MAP.find? (fun kv => containsSub (strUpper name) kv.1)).map Prod.snd) ∧
      map_wash_type none = none := by
  refine ⟨?_, rfl⟩
  intro name
  by_cases hn : name.isEmpty = true
  · simp [map_wash_type, hn]
  · rw [if_neg hn]
    show (if name.isEmpty = true then none else _) = _
    rw [if_neg hn]
    show (match WASH_TYPE_MAP.foldl _ none with
      | some v => if ALLOWED_WASH_TYPES.contains v then some v else none
      | none => none) = _
    rw [washFold_eq_find (strUpper name) WASH_TYPE_MAP]
    cases hfind : WASH_TYPE_MAP.find? (fun kv => containsSub (strUpper name) kv.1) with
    | none => rfl
    | some kv =>
      have hkv : kv ∈ WASH_TYPE_MAP := List.mem_of_find?_eq_some hfind
      have hall : ALLOWED_WASH_TYPES.contains kv.2 = true := by
        simp only [WASH_TYPE_MAP, List.mem_cons, List.not_mem_nil, or_false] at hkv
        rcases hkv with h | h | h | h | h <;> subst h <;> rfl
      show (if ALLOWED_WASH_TYPES.contains kv.2 = true then some kv.2 else none) = some kv.2
      rw [if_pos hall]

/-- The report of a block always carries the block start index. -/
theorem process_block_idx (orc : LoaderOracle) (st : LoaderStore) (i : Nat)
    (l1 l2 l4 : String) : (process_block orc st i l1 l2 l4).2.idx = i := by
  cases hp : parse_block l1 l2 l4 with
  | none => simp [process_block, hp]
  | some b =>
    simp only [process_block, superTunnelStage, hp]
    split_ifs <;> rfl

/-- Within one block, the statements run in sequence inside a single try:
the insert is attempted exactly on a parsed fresh bill, the super update
runs only when the block reached it (parse ok and no insert raise), the
tunnel update only when the super update returned, and the block errors
exactly when some reached statement failed. -/
theorem process_block_relations (orc : LoaderOracle) (st : LoaderStore) (i : Nat)
    (l1 l2 l4 : String) :
    ((process_block orc st i l1 l2 l4).2.insertAttempted =
        ((process_block orc st i l1 l2 l4).2.parsedOk && !(process_block orc st i l1 l2 l4).2.existed)) ∧
      ((process_block orc st i l1 l2 l4).2.superAttempted =
        ((process_block orc st i l1 l2 l4).2.parsedOk &&
          ((process_block orc st i l1 l2 l4).2.existed || (process_block orc st i l1 l2 l4).2.insertOk))) ∧
      ((process_block orc st i l1 l2 l4).2.tunnelAttempted =
        ((process_block orc st i l1 l2 l4).2.superAttempted && (process_block orc st i l1 l2 l4).2.superOk)) ∧
      ((process_block orc st i l1 l2 l4).2.errored =
        (!(process_block orc st i l1 l2 l4).2.parsedOk ||
          ((process_block orc st i l1 l2 l4).2.insertAttempted && !(process_block orc st i l1 l2 l4).2.insertOk) ||
          ((process_block orc st i l1 l2 l4).2.superAttempted && !(process_block orc st i l1 l2 l4).2.superOk) ||
          ((process_block orc st i l1 l2 l4).2.tunnelAttempted && !(process_block orc st i l1 l2 l4).2.tunnelOk))) := by
  cases hp : parse_block l1 l2 l4 with
  | none => simp only [process_block, hp]; exact ⟨rfl, rfl, rfl, rfl⟩
  | some b =>
    simp only [process_block, superTunnelStage, hp]
    split_ifs <;> exact ⟨rfl, rfl, rfl, rfl⟩

/-- The shape of the block loop — which block indices get processed — does
not depend on the failure oracle or on the evolving store. -/
theorem blocksLoopF_idx (lines : List String) :
    ∀ (fuel i : Nat) (orc orc2 : LoaderOracle) (st st2 : LoaderStore),
      (blocksLoopF orc lines fuel i st).2.map (fun r => r.idx) =
        (blocksLoopF orc2 lines fuel i st2).2.map (fun r => r.idx) := by
  intro fuel
  induction fuel with
  | zero => intro i orc orc2 st st2; rfl
  | succ fuel ih =>
    intro i orc orc2 st st2
    show ((if i < lines.length then _ else _ : LoaderStore × List BlockReport)).2.map _ =
      ((if i < lines.length then _ else _ : LoaderStore × List BlockReport)).2.map _
    by_cases h1 : i < lines.length
    · rw [if_pos h1, if_pos h1]
      by_cases h2 : i + 3 ≥ lines.length
      · rw [if_pos h2, if_pos h2]
      · rw [if_neg h2, if_neg h2]
        show ((process_block orc st i _ _ _).2 :: (blocksLoopF orc lines fuel (i + 4) _).2).map _ =
          ((process_block orc2 st2 i _ _ _).2 :: (blocksLoopF orc2 lines fuel (i + 4) _).2).map _
        rw [List.map_cons, List.map_cons, process_block_idx, process_block_idx]
        rw [ih (i + 4) orc orc2 _ _]
    · rw [if_neg h1, if_neg h1]

/-- Every report the loop emits satisfies the per-block relations. -/
theorem blocksLoopF_relations (orc : LoaderOracle) (lines : List String) :
    ∀ (fuel i : Nat) (st : LoaderStore) (r : BlockReport),
      r ∈ (blocksLoopF orc lines fuel i st).2 →
      (r.insertAttempted = (r.parsedOk && !r.existed)) ∧
        (r.superAttempted = (r.parsedOk && (r.existed || r.insertOk))) ∧
        (r.tunnelAttempted = (r.superAttempted && r.superOk)) ∧
        (r.errored = (!r.parsedOk || (r.insertAttempted && !r.insertOk) ||
          (r.superAttempted && !r.superOk) || (r.tunnelAttempted && !r.tunnelOk))) := by
  intro fuel
  induction fuel with
  | zero => intro i st r hr; exact absurd hr (List.not_mem_nil r)
  | succ fuel ih =>
    intro i st r hr
    by_cases h1 : i < lines.length
    · by_cases h2 : i + 3 ≥ lines.length
      · rw [show (blocksLoopF orc lines (fuel + 1) i st).2 =
            (if i < lines.length then if i + 3 ≥ lines.length then (st, ([] : List BlockReport))
              else ((blocksLoopF orc lines fuel (i + 4)
                  (process_block orc st i (lines.getD i "") (lines.getD (i + 1) "") (lines.getD (i + 3) "")).1).1,
                (process_block orc st i (lines.getD i "") (lines.getD (i + 1) "") (lines.getD (i + 3) "")).2 ::
                  (blocksLoopF orc lines fuel (i + 4)
                    (process_block orc st i (lines.getD i "") (lines.getD (i + 1) "") (lines.getD (i + 3) "")).1).2)
              else (st, [])).2 from rfl, if_pos h1, if_pos h2] at hr
        exact absurd hr (List.not_mem_nil r)
      · rw [show (blocksLoopF orc lines (fuel + 1) i st).2 =
            (if i < lines.length then if i + 3 ≥ lines.length then (st, ([] : List BlockReport))
              else ((blocksLoopF orc lines fuel (i + 4)
                  (process_block orc st i (lines.getD i "") (lines.getD (i + 1) "") (lines.getD (i + 3) "")).1).1,
                (process_block orc st i (lines.getD i "") (lines.getD (i + 1) "") (lines.getD (i + 3) "")).2 ::
                  (blocksLoopF orc lines fuel (i + 4)
                    (process_block orc st i (lines.getD i "") (lines.getD (i + 1) "") (lines.getD (i + 3) "")).1).2)
              else (st, [])).2 from rfl, if_pos h1, if_neg h2] at hr
        rcases List.mem_cons.mp hr with h | h
        · subst h
          exact process_block_relations orc st i _ _ _
        · exact ih (i + 4) _ r h
    · rw [show (blocksLoopF orc lines (fuel + 1) i st).2 =
          (if i < lines.length then if i + 3 ≥ lines.length then (st, ([] : List BlockReport))
            else ((blocksLoopF orc lines fuel (i + 4)
                (process_block orc st i (lines.getD i "") (lines.getD (i + 1) "") (lines.getD (i + 3) "")).1).1,
              (process_block orc st i (lines.getD i "") (lines.getD (i + 1) "") (lines.getD (i + 3) "")).2 ::
                (blocksLoopF orc lines fuel (i + 4)
                  (process_block orc st i (lines.getD i "") (lines.getD (i + 1) "") (lines.getD (i + 3) "")).1).2)
            else (st, [])).2 from rfl, if_neg h1] at hr
      exact absurd hr (List.not_mem_nil r)

/-- C2 (amended): the three per-block statements share one failure domain
per block — a failure in an earlier statement of the try skips the later
ones of that block (the super update runs only when parsing succeeded and
no fresh insert raised; the tunnel update only when the super update
returned) — but no failure aborts the loop: the processed block indices
are the same under every failure oracle and store. -/
theorem block_failure_isolation :
    (∀ (orc orc2 : LoaderOracle) (st : LoaderStore) (lines : List String),
        (process_file orc st lines).reports.map (fun r => r.idx) =
          (process_file orc2 st lines).reports.map (fun r => r.idx)) ∧
      (∀ (orc : LoaderOracle) (st : LoaderStore) (lines : List String),
          ∀ r ∈ (process_file orc st lines).reports,
            (r.insertAttempted = (r.parsedOk && !r.existed)) ∧
              (r.superAttempted = (r.parsedOk && (r.existed || r.insertOk))) ∧
              (r.tunnelAttempted = (r.superAttempted && r.superOk)) ∧
              (r.errored = (!r.parsedOk || (r.insertAttempted && !r.insertOk) ||
                (r.superAttempted && !r.superOk) || (r.tunnelAttempted && !r.tunnelOk)))) := by
  constructor
  · intro orc orc2 st lines
    exact blocksLoopF_idx lines (lines.length + 1)
      (start_index lines (get_last_processed_bill st.loader_log)) orc orc2 st st
  · intro orc st lines r hr
    exact blocksLoopF_relations orc lines (lines.length + 1)
      (start_index lines (get_last_processed_bill st.loader_log)) st r hr

/-- Witness for C2: on a well-formed block whose insert raises, the loop
shape matches the all-success run, and the failing report satisfies the
sequencing relations (insert attempted and failed, super and tunnel
skipped, block errored). -/
theorem block_failure_isolation_witness :
    ((process_file insOracle ⟨[], [], []⟩ goodLines).reports.map (fun r => r.idx) =
        (process_file okOracle ⟨[], [], []⟩ goodLines).reports.map (fun r => r.idx)) ∧
      (((true : Bool) = (true && !false)) ∧ ((false : Bool) = (true && (false || false))) ∧
        ((false : Bool) = (false && false)) ∧ ((true : Bool) = (!true || (true && !false) || (false && !false) || (false && !false)))) := by
  constructor
  · exact block_failure_isolation.1 insOracle okOracle ⟨[], [], []⟩ goodLines
  · have := block_failure_isolation.2 insOracle ⟨[], [], []⟩ goodLines
      ⟨0, true, false, true, false, false, false, false, false, true⟩ (by decide)
    exact this

/-- Merging nothing on the right is the identity. -/
theorem mergeInv_none_right (a : Option String) : mergeInv a none = a := by
  cases a <;> rfl

/-- First-wins merging is associative. -/
theorem mergeInv_assoc (a b c : Option String) :
    mergeInv (mergeInv a b) c = mergeInv a (mergeInv b c) := by
  cases a <;> cases b <;> rfl

/-- Unfolding of the line scan on a cons. -/
theorem invoice_scan_cons (order : Line → List (Option String)) (l : Line) (rest : List Line) :
    invoice_scan_with order (l :: rest) =
      mergeInv (first_invoice_pats (order l)) (invoice_scan_with order rest) := by
  show (match first_invoice_pats (order l) with
    | some v => some v
    | none => invoice_scan_with order rest) = _
  cases first_invoice_pats (order l) <;> rfl

/-- The line scan distributes over append by first-wins merging. -/
theorem invoice_scan_append (order : Line → List (Option String)) :
    ∀ (a b : List Line),
      invoice_scan_with order (a ++ b) =
        mergeInv (invoice_scan_with order a) (invoice_scan_with order b) := by
  intro a b
  induction a with
  | nil => rfl
  | cons l rest ih =>
    rw [List.cons_append, invoice_scan_cons, invoice_scan_cons, ih, mergeInv_assoc]

/-- The invoice step on a pattern that matched nothing. -/
theorem invStep_none (s : Session) : invStep s none = s := rfl

/-- The invoice step on a capture when an invoice is already recorded. -/
theorem invStep_some_some (s : Session) (v w : String) (hs : s.invoice = some w) :
    invStep s (some v) = s := by
  unfold invStep
  rw [hs]

/-- The invoice step on a capture when no invoice is recorded yet. -/
theorem invStep_some_none (s : Session) (v : String) (hs : s.invoice = none) :
    invStep s (some v) =
      if v ≠ "0" then { s with invoice := some v } else s := by
  unfold invStep
  rw [hs]

/-- The invoice-detection fold computes the first usable capture when none
was recorded, first-wins otherwise. -/
theorem inv_foldl_invoice :
    ∀ (pats : List (Option String)) (s : Session),
      (pats.foldl invStep s).invoice = mergeInv s.invoice (first_invoice_pats pats) := by
  intro pats
  induction pats with
  | nil =>
    intro s
    rw [List.foldl_nil]
    show s.invoice = mergeInv s.invoice none
    rw [mergeInv_none_right]
  | cons m pats ih =>
    intro s
    rw [List.foldl_cons]
    cases m with
    | none => rw [invStep_none, ih]; rfl
    | some v =>
      cases hs : s.invoice with
      | some w =>
        rw [invStep_some_some s v w hs, ih, hs]
        show some w = mergeInv (some w) _
        rfl
      | none =>
        rw [invStep_some_none s v hs]
        by_cases hv : v ≠ "0"
        · rw [if_pos hv, ih]
          show mergeInv (some v) _ = mergeInv none (first_invoice_pats (some v :: pats))
          show some v = mergeInv none (first_invoice_pats (some v :: pats))
          show some v = first_invoice_pats (some v :: pats)
          show some v = (if v ≠ "0" then some v else first_invoice_pats pats)
          rw [if_pos hv]
        · rw [if_neg hv, ih, hs]
          show mergeInv none (first_invoice_pats pats) = mergeInv none (first_invoice_pats (some v :: pats))
          show first_invoice_pats pats = first_invoice_pats (some v :: pats)
          show _ = (if v ≠ "0" then some v else first_invoice_pats pats)
          rw [if_neg hv]

/-- The whole invoice step, projected on the invoice field. -/
theorem invoice_step_invoice (s : Session) (l : Line) :
    (invoice_step s l).invoice =
      mergeInv s.invoice (first_invoice_pats (invoicePatterns l)) :=
  inv_foldl_invoice (invoicePatterns l) s

/-- The timestamp step never touches the invoice. -/
theorem ts_step_invoice (s : Session) (ts : Option Nat) :
    (ts_step s ts).invoice = s.invoice := by
  unfold ts_step
  try dsimp only
  repeat' split
  all_goals rfl

/-- Recording an unlimited flag never touches the invoice. -/
theorem set_unlimited_invoice (s : Session) (f : UType) (ts : Option Nat) :
    (set_unlimited s f ts).invoice = s.invoice := by
  unfold set_unlimited
  try dsimp only
  repeat' split
  all_goals rfl

/-- The unlimited step never touches the invoice. -/
theorem unlimited_step_invoice (s : Session) (l : Line) :
    (unlimited_step s l).invoice = s.invoice := by
  unfold unlimited_step
  try dsimp only
  repeat' split
  all_goals simp [set_unlimited_invoice]

/-- The name and plate step never touches the invoice. -/
theorem name_plate_step_invoice (s : Session) (l : Line) :
    (name_plate_step s l).invoice = s.invoice := by
  unfold name_plate_step
  try dsimp only
  repeat' split
  all_goals rfl

/-- The wash-package step never touches the invoice. -/
theorem washpkg_step_invoice (s : Session) (l : Line) :
    (washpkg_step s l).invoice = s.invoice := by
  unfold washpkg_step
  try dsimp only
  repeat' split
  all_goals rfl

/-- The add-on step never touches the invoice. -/
theorem addon_step_invoice (s : Session) (l : Line) :
    (addon_step s l).invoice = s.invoice := by
  unfold addon_step
  try dsimp only
  repeat' split
  all_goals rfl

/-- The payment step never touches the invoice. -/
theorem payment_step_invoice (s : Session) (l : Line) :
    (payment_step s l).invoice = s.invoice := by
  unfold payment_step
  try dsimp only
  repeat' split
  all_goals rfl

/-- The image step never touches the invoice. -/
theorem image_step_invoice (s : Session) (l : Line) :
    (image_step s l).invoice = s.invoice := by
  unfold image_step
  try dsimp only
  repeat' split
  all_goals rfl

/-- The discount, tax and total step never touches the invoice. -/
theorem money_step_invoice (s : Session) (l : Line) :
    (money_step s l).invoice = s.invoice := by
  unfold money_step
  try dsimp only
  repeat' split
  all_goals rfl

/-- A full per-line update changes the invoice exactly by the
first-usable-capture rule over the patterns in source order, first line
wins and sticky. -/
theorem update_session_invoice (s : Session) (l : Line) :
    (update_session s l).invoice =
      mergeInv s.invoice (first_invoice_pats (invoicePatterns l)) := by
  unfold update_session
  rw [money_step_invoice, image_step_invoice, payment_step_invoice, addon_step_invoice,
    washpkg_step_invoice, name_plate_step_invoice, unlimited_step_invoice,
    invoice_step_invoice, ts_step_invoice]

/-- The invoice of the open session after a run of non-closing lines. -/
theorem sessAfter_invoice :
    ∀ (ls : List Line) (os : Option Session),
      ivOf (sessAfter os ls) =
        mergeInv (ivOf os) (invoice_scan_with invoicePatterns ls) := by
  intro ls
  induction ls with
  | nil =>
    intro os
    show ivOf os = mergeInv (ivOf os) none
    rw [mergeInv_none_right]
  | cons l rest ih =>
    intro os
    show ivOf (sessAfter (some (update_session (match os with | none => new_session l.ts | some s => s) l)) rest) = _
    rw [ih, invoice_scan_cons, ← mergeInv_assoc]
    have hbase : (update_session (match os with | none => new_session l.ts | some s => s) l).invoice =
        mergeInv (ivOf os) (first_invoice_pats (invoicePatterns l)) := by
      rw [update_session_invoice]
      cases os <;> rfl
    show mergeInv (update_session _ l).invoice _ = _
    rw [hbase]

/-- A non-closing line leaves the closed sessions and the counter alone and
advances the open session. -/
theorem proc_line_no_end (st : ParseState) (l : Line) (h : end_marker l = false) :
    proc_line st l =
      ⟨st.sessions, some (update_session (match st.sess with | none => new_session l.ts | some s => s) l),
        st.counter⟩ := by
  unfold proc_line
  rw [h]
  rfl

/-- Folding any run of non-closing lines only advances the open session. -/
theorem fold_no_end :
    ∀ (ls : List Line) (A : List (Session × Nat)) (os : Option Session) (n : Nat),
      (∀ l ∈ ls, end_marker l = false) →
      ls.foldl proc_line ⟨A, os, n⟩ = ⟨A, sessAfter os ls, n⟩ := by
  intro ls
  induction ls with
  | nil => intro A os n _; rfl
  | cons l rest ih =>
    intro A os n h
    rw [List.foldl_cons, proc_line_no_end _ _ (h l (List.mem_cons_self l rest))]
    exact ih A _ n (fun x hx => h x (List.mem_cons_of_mem _ hx))

/-- A closing line updates the session one final time, bumps its last
timestamp when later, appends it with the running index, and resets. -/
theorem proc_line_close (A : List (Session × Nat)) (os : Option Session) (n : Nat)
    (l : Line) (h : end_marker l = true) :
    proc_line ⟨A, os, n⟩ l =
      ⟨A ++ [(if optTsGT l.ts (update_session (match os with | none => new_session l.ts | some s => s) l).last_ts
            then { update_session (match os with | none => new_session l.ts | some s => s) l with last_ts := l.ts }
            else update_session (match os with | none => new_session l.ts | some s => s) l, n)],
        none, n + 1⟩ := by
  unfold proc_line
  rw [h]
  show end_session ⟨A, some (update_session _ l), n⟩ l.ts = _
  unfold end_session
  rfl

/-- C3 (amended): for every line sequence forming one kiosk session, the
finalized session carries as its invoice the first capture, over the lines
in order and within each line over the five patterns in the order the
source tries them — inline invoice+payment, dispatcher, proceed-to-wash,
generic, AWS-style — whose digit string is not the literal 0; once set it
is sticky, later matches never changing it. -/
theorem invoice_priority_sticky (st0 : ParseState) (ls : List Line) (close : Line)
    (h0 : st0.sess = none) (hne : ∀ l ∈ ls, end_marker l = false)
    (hcl : end_marker close = true) :
    ((ls ++ [close]).foldl proc_line st0).sessions.map (fun p => p.1.invoice) =
      st0.sessions.map (fun p => p.1.invoice) ++
        [invoice_scan_with invoicePatterns (ls ++ [close])] := by
  obtain ⟨A, os, n⟩ := st0
  simp only at h0
  subst h0
  rw [List.foldl_append, fold_no_end ls A none n hne]
  show (proc_line ⟨A, sessAfter none ls, n⟩ close).sessions.map _ = _
  rw [proc_line_close A (sessAfter none ls) n close hcl]
  show (A ++ [_]).map _ = _
  rw [List.map_append]
  congr 1
  show [_] = [_]
  congr 1
  show (if optTsGT close.ts _ then _ else _ : Session).invoice = _
  have hinv : (update_session (match sessAfter none ls with | none => new_session close.ts | some s => s) close).invoice =
      invoice_scan_with invoicePatterns (ls ++ [close]) := by
    rw [update_session_invoice]
    have : (match sessAfter none ls with | none => new_session close.ts | some s => s).invoice =
        ivOf (sessAfter none ls) := by
      cases sessAfter none ls <;> rfl
    rw [this, sessAfter_invoice ls none]
    show mergeInv (mergeInv none _) _ = _
    rw [mergeInv_assoc]
    show mergeInv (invoice_scan_with invoicePatterns ls) _ = _
    rw [invoice_scan_append]
    congr 1
    rw [invoice_scan_cons]
    show _ = mergeInv (first_invoice_pats (invoicePatterns close)) none
    rw [mergeInv_none_right]
  split_ifs with hts
  · show ({ update_session _ close with last_ts := close.ts } : Session).invoice = _
    rw [show ({ update_session (match sessAfter none ls with | none => new_session close.ts | some s => s) close with last_ts := close.ts } : Session).invoice =
      (update_session (match sessAfter none ls with | none => new_session close.ts | some s => s) close).invoice from rfl]
    exact hinv
  · exact hinv

/-- Witness for C3 (amended): a concrete two-line session in which the
second usable capture on the first line and a capture on the second line
are both ignored — the dispatcher capture of the first line wins. -/
theorem invoice_priority_sticky_witness :
    ((([invLineA] ++ [closeLine]).foldl proc_line initState).sessions.map (fun p => p.1.invoice) =
      (initState).sessions.map (fun p => p.1.invoice) ++
        [invoice_scan_with invoicePatterns ([invLineA] ++ [closeLine])]) :=
  invoice_priority_sticky initState [invLineA] closeLine rfl
    (by intro l hl; simp only [List.mem_singleton] at hl; subst hl; rfl) rfl

/-- One invoice pattern never touches the unlimited flag. -/
theorem invStep_is_unl (s : Session) (m : Option String) :
    (invStep s m).is_unlimited = s.is_unlimited := by
  unfold invStep
  repeat' split
  all_goals rfl

/-- One invoice pattern never touches the unlimited type. -/
theorem invStep_unl_type (s : Session) (m : Option String) :
    (invStep s m).unlimited_type = s.unlimited_type := by
  unfold invStep
  repeat' split
  all_goals rfl

/-- The invoice fold never touches the unlimited flag. -/
theorem inv_foldl_is_unl :
    ∀ (pats : List (Option String)) (s : Session),
      (pats.foldl invStep s).is_unlimited = s.is_unlimited := by
  intro pats
  induction pats with
  | nil => intro s; rfl
  | cons m pats ih => intro s; rw [List.foldl_cons, ih, invStep_is_unl]

/-- The invoice fold never touches the unlimited type. -/
theorem inv_foldl_unl_type :
    ∀ (pats : List (Option String)) (s : Session),
      (pats.foldl invStep s).unlimited_type = s.unlimited_type := by
  intro pats
  induction pats with
  | nil => intro s; rfl
  | cons m pats ih => intro s; rw [List.foldl_cons, ih, invStep_unl_type]

/-- The timestamp step never touches the unlimited flag or type. -/
theorem ts_step_unl (s : Session) (ts : Option Nat) :
    (ts_step s ts).is_unlimited = s.is_unlimited ∧
      (ts_step s ts).unlimited_type = s.unlimited_type := by
  unfold ts_step
  try dsimp only
  constructor
  all_goals repeat' split
  all_goals rfl

/-- The name and plate step never touches the unlimited flag or type. -/
theorem name_plate_step_unl (s : Session) (l : Line) :
    (name_plate_step s l).is_unlimited = s.is_unlimited ∧
      (name_plate_step s l).unlimited_type = s.unlimited_type := by
  unfold name_plate_step
  try dsimp only
  constructor
  all_goals repeat' split
  all_goals rfl

/-- The wash-package step never touches the unlimited flag or type. -/
theorem washpkg_step_unl (s : Session) (l : Line) :
    (washpkg_step s l).is_unlimited = s.is_unlimited ∧
      (washpkg_step s l).unlimited_type = s.unlimited_type := by
  unfold washpkg_step
  try dsimp only
  constructor
  all_goals repeat' split
  all_goals rfl

/-- The add-on step never touches the unlimited flag or type. -/
theorem addon_step_unl (s : Session) (l : Line) :
    (addon_step s l).is_unlimited = s.is_unlimited ∧
      (addon_step s l).unlimited_type = s.unlimited_type := by
  unfold addon_step
  try dsimp only
  constructor
  all_goals repeat' split
  all_goals rfl

/-- The payment step never touches the unlimited flag or type. -/
theorem payment_step_unl (s : Session) (l : Line) :
    (payment_step s l).is_unlimited = s.is_unlimited ∧
      (payment_step s l).unlimited_type = s.unlimited_type := by
  unfold payment_step
  try dsimp only
  constructor
  all_goals repeat' split
  all_goals rfl

/-- The image step never touches the unlimited flag or type. -/
theorem image_step_unl (s : Session) (l : Line) :
    (image_step s l).is_unlimited = s.is_unlimited ∧
      (image_step s l).unlimited_type = s.unlimited_type := by
  unfold image_step
  try dsimp only
  constructor
  all_goals repeat' split
  all_goals rfl

/-- The money step never touches the unlimited flag or type. -/
theorem money_step_unl (s : Session) (l : Line) :
    (money_step s l).is_unlimited = s.is_unlimited ∧
      (money_step s l).unlimited_type = s.unlimited_type := by
  unfold money_step
  try dsimp only
  constructor
  all_goals repeat' split
  all_goals rfl

/-- Recording the RECURRING flag always marks the session unlimited with
type RECURRING, whatever was recorded before. -/
theorem set_unlimited_recur (s : Session) (ts : Option Nat) :
    recurringProp (set_unlimited s UType.RECURRING ts) := by
  unfold set_unlimited recurringProp
  rw [if_pos (Or.inr (Or.inr rfl))]
  constructor
  · rfl
  · show (if UType.RECURRING = UType.RECURRING ∨ s.unlimited_type = none
        then some UType.RECURRING else s.unlimited_type) = some UType.RECURRING
    rw [if_pos (Or.inl rfl)]

/-- Once a session is unlimited with type RECURRING, any further flag
observation keeps it so — a later NEW marker never overwrites RECURRING. -/
theorem set_unlimited_pres (s : Session) (f : UType) (ts : Option Nat)
    (h : recurringProp s) : recurringProp (set_unlimited s f ts) := by
  obtain ⟨h1, h2⟩ := h
  unfold set_unlimited recurringProp
  split_ifs with hc hinner
  · refine ⟨rfl, ?_⟩
    show some f = some UType.RECURRING
    rcases hinner with hf | hn
    · rw [hf]
    · rw [h2] at hn
      exact absurd hn (by simp)
  · exact ⟨rfl, h2⟩
  · exact ⟨h1, h2⟩

/-- A line with the RECURRING marker leaves the unlimited step in the
RECURRING state. -/
theorem unlimited_step_recur (s : Session) (l : Line) (h : l.unlimitedRecur = true) :
    recurringProp (unlimited_step s l) := by
  unfold unlimited_step
  try dsimp only
  rw [if_pos h]
  exact set_unlimited_recur _ _

/-- The unlimited step preserves an established RECURRING state. -/
theorem unlimited_step_pres (s : Session) (l : Line) (h : recurringProp s) :
    recurringProp (unlimited_step s l) := by
  unfold unlimited_step
  try dsimp only
  split_ifs
  · exact set_unlimited_pres _ _ _ (set_unlimited_pres _ _ _ h)
  · exact set_unlimited_pres _ _ _ h
  · exact set_unlimited_pres _ _ _ h
  · exact h

/-- The unlimited flag and type of a full line update are decided by the
unlimited step alone. -/
theorem update_session_unl_pair (s : Session) (l : Line) :
    (update_session s l).is_unlimited =
        (unlimited_step (invoice_step (ts_step s l.ts) l) l).is_unlimited ∧
      (update_session s l).unlimited_type =
        (unlimited_step (invoice_step (ts_step s l.ts) l) l).unlimited_type := by
  unfold update_session
  constructor
  · rw [(money_step_unl _ _).1, (image_step_unl _ _).1, (payment_step_unl _ _).1,
      (addon_step_unl _ _).1, (washpkg_step_unl _ _).1, (name_plate_step_unl _ _).1]
  · rw [(money_step_unl _ _).2, (image_step_unl _ _).2, (payment_step_unl _ _).2,
      (addon_step_unl _ _).2, (washpkg_step_unl _ _).2, (name_plate_step_unl _ _).2]

/-- A full line update on a RECURRING-marker line yields the RECURRING
state. -/
theorem update_session_recurring (s : Session) (l : Line) (h : l.unlimitedRecur = true) :
    recurringProp (update_session s l) := by
  have hp := unlimited_step_recur (invoice_step (ts_step s l.ts) l) l h
  exact ⟨by rw [(update_session_unl_pair s l).1]; exact hp.1,
    by rw [(update_session_unl_pair s l).2]; exact hp.2⟩

/-- A full line update preserves the RECURRING state. -/
theorem update_session_prop_pres (s : Session) (l : Line) (h : recurringProp s) :
    recurringProp (update_session s l) := by
  have hbase : recurringProp (invoice_step (ts_step s l.ts) l) := by
    exact ⟨by rw [show (invoice_step (ts_step s l.ts) l).is_unlimited =
          (ts_step s l.ts).is_unlimited from inv_foldl_is_unl _ _, (ts_step_unl s l.ts).1]; exact h.1,
      by rw [show (invoice_step (ts_step s l.ts) l).unlimited_type =
          (ts_step s l.ts).unlimited_type from inv_foldl_unl_type _ _, (ts_step_unl s l.ts).2]; exact h.2⟩
  have hp := unlimited_step_pres _ l hbase
  exact ⟨by rw [(update_session_unl_pair s l).1]; exact hp.1,
    by rw [(update_session_unl_pair s l).2]; exact hp.2⟩

/-- The RECURRING state survives any run of non-closing lines. -/
theorem sessAfter_pres :
    ∀ (ls : List Line) (s : Session), recurringProp s →
      ∃ s', sessAfter (some s) ls = some s' ∧ recurringProp s' := by
  intro ls
  induction ls with
  | nil => intro s h; exact ⟨s, rfl, h⟩
  | cons l rest ih =>
    intro s h
    exact ih (update_session s l) (update_session_prop_pres s l h)

/-- Any run of lines containing a RECURRING marker ends in the RECURRING
state. -/
theorem sessAfter_recurs :
    ∀ (ls : List Line) (os : Option Session),
      (∃ l ∈ ls, l.unlimitedRecur = true) →
      ∃ s', sessAfter os ls = some s' ∧ recurringProp s' := by
  intro ls
  induction ls with
  | nil => intro os h; exact absurd h (by simp)
  | cons l rest ih =>
    intro os h
    rcases h with ⟨x, hx, hxr⟩
    rcases List.mem_cons.mp hx with hhead | htail
    · subst hhead
      exact sessAfter_pres rest _
        (update_session_recurring (match os with | none => new_session x.ts | some s => s) x hxr)
    · exact ih (some (update_session (match os with | none => new_session l.ts | some s => s) l))
        ⟨x, htail, hxr⟩

/-- C6: for every kiosk session whose lines carry both a NEW CUSTOMER and
a RECURRING marker, in either order and with any line timestamps, the
finalized session has is_unlimited true and unlimited_type RECURRING. -/
theorem unlimited_recurring_tiebreak (st0 : ParseState) (ls : List Line) (close : Line)
    (h0 : st0.sess = none) (hne : ∀ l ∈ ls, end_marker l = false)
    (hcl : end_marker close = true)
    (hnew : ∃ l ∈ ls ++ [close], l.unlimitedNew = true)
    (hrec : ∃ l ∈ ls ++ [close], l.unlimitedRecur = true) :
    ((ls ++ [close]).foldl proc_line st0).sessions.map
        (fun p => (p.1.is_unlimited, p.1.unlimited_type)) =
      st0.sessions.map (fun p => (p.1.is_unlimited, p.1.unlimited_type)) ++
        [(true, some UType.RECURRING)] := by
  obtain ⟨A, os, n⟩ := st0
  simp only at h0
  subst h0
  rw [List.foldl_append, fold_no_end ls A none n hne]
  show (proc_line ⟨A, sessAfter none ls, n⟩ close).sessions.map _ = _
  rw [proc_line_close A (sessAfter none ls) n close hcl]
  show (A ++ [_]).map _ = _
  rw [List.map_append]
  congr 1
  show [_] = [_]
  congr 1
  have hprop : recurringProp (update_session
      (match sessAfter none ls with | none => new_session close.ts | some s => s) close) := by
    rcases hrec with ⟨x, hx, hxr⟩
    rcases List.mem_append.mp hx with hxl | hxc
    · obtain ⟨s', hs', hps'⟩ := sessAfter_recurs ls none ⟨x, hxl, hxr⟩
      rw [hs']
      exact update_session_prop_pres s' close hps'
    · have hxcl : x = close := by simpa using hxc
      subst hxcl
      exact update_session_recurring _ x hxr
  have htweak : recurringProp (if optTsGT close.ts
      (update_session (match sessAfter none ls with | none => new_session close.ts | some s => s) close).last_ts
    then { update_session (match sessAfter none ls with | none => new_session close.ts | some s => s) close with
        last_ts := close.ts }
    else update_session (match sessAfter none ls with | none => new_session close.ts | some s => s) close) := by
    split_ifs
    · exact ⟨hprop.1, hprop.2⟩
    · exact hprop
  rw [Prod.mk.injEq]
  exact ⟨htweak.1, htweak.2⟩

/-- Witness for C6: a NEW marker line followed by an earlier-stamped
RECURRING marker line still finalizes as unlimited RECURRING. -/
theorem unlimited_recurring_tiebreak_witness :
    (([newLine, recurLine] ++ [closeLine]).foldl proc_line initState).sessions.map
        (fun p => (p.1.is_unlimited, p.1.unlimited_type)) =
      initState.sessions.map (fun p => (p.1.is_unlimited, p.1.unlimited_type)) ++
        [(true, some UType.RECURRING)] :=
  unlimited_recurring_tiebreak initState [newLine, recurLine] closeLine rfl
    (by decide) rfl (by decide) (by decide)

/-- The super-row frame relation is reflexive. -/
theorem superRel_refl (a : SuperRow) : superRel a a :=
  ⟨fun h => absurd rfl h, rfl, fun _ => rfl⟩

/-- The tunnel-row frame relation is reflexive. -/
theorem tunnelRel_refl (a : TunnelRow) : tunnelRel a a :=
  ⟨fun h => absurd rfl h, rfl⟩

/-- The super update statement respects the frame relation on each row. -/
theorem superRel_update (tp : String) (bl : Nat) (dp : String) (a : SuperRow) :
    superRel a (super_update_row tp bl dp a) := by
  unfold super_update_row
  split_ifs with hc
  · exact ⟨fun _ => ⟨hc.2.2.1, hc.2.2.2⟩, rfl, fun hlt => absurd hc.2.2.2 (by rw [hlt]; simp)⟩
  · exact superRel_refl a

/-- The tunnel update statement respects the frame relation on each row. -/
theorem tunnelRel_update (tp : String) (bl : Nat) (dp : String) (a : TunnelRow) :
    tunnelRel a (tunnel_update_row tp bl dp a) := by
  unfold tunnel_update_row
  split_ifs with hc
  · exact ⟨fun _ => hc.2.2, rfl⟩
  · exact tunnelRel_refl a

/-- The super-row frame relation composes. -/
theorem superRel_trans {a b c : SuperRow} (h1 : superRel a b) (h2 : superRel b c) :
    superRel a c := by
  obtain ⟨h1c, h1loc, h1st⟩ := h1
  obtain ⟨h2c, h2loc, h2st⟩ := h2
  refine ⟨?_, by rw [h2loc, h1loc], ?_⟩
  · intro hca
    by_cases hba : b = a
    · subst hba
      exact ⟨(h2c hca).1, (h2c hca).2⟩
    · exact h1c hba
  · intro hst
    have hb : b = a := h1st hst
    subst hb
    exact h2st hst

/-- The tunnel-row frame relation composes. -/
theorem tunnelRel_trans {a b c : TunnelRow} (h1 : tunnelRel a b) (h2 : tunnelRel b c) :
    tunnelRel a c := by
  obtain ⟨h1c, h1loc⟩ := h1
  obtain ⟨h2c, h2loc⟩ := h2
  refine ⟨?_, by rw [h2loc, h1loc]⟩
  intro hca
  by_cases hba : b = a
  · subst hba
    exact h2c hca
  · exact h1c hba

/-- The store frame relation is reflexive. -/
theorem storeRel_refl (st : LoaderStore) : storeRel st st :=
  ⟨rfl, rfl,
    fun _ a b ha hb => by rw [ha] at hb; cases hb; exact superRel_refl a,
    fun _ a b ha hb => by rw [ha] at hb; cases hb; exact tunnelRel_refl a⟩

/-- The store frame relation composes. -/
theorem storeRel_trans {s0 s1 s2 : LoaderStore} (h1 : storeRel s0 s1) (h2 : storeRel s1 s2) :
    storeRel s0 s2 := by
  obtain ⟨hl1, hl1t, hs1, ht1⟩ := h1
  obtain ⟨hl2, hl2t, hs2, ht2⟩ := h2
  refine ⟨hl1.trans hl2, hl1t.trans hl2t, ?_, ?_⟩
  · intro i a b ha hb
    have hi : i < s1.super.length := by
      rw [← hl1]
      exact (List.get?_eq_some.mp ha).1
    have hm := List.get?_eq_get hi
    exact superRel_trans (hs1 i a _ ha hm) (hs2 i _ b hm hb)
  · intro i a b ha hb
    have hi : i < s1.tunnel.length := by
      rw [← hl1t]
      exact (List.get?_eq_some.mp ha).1
    have hm := List.get?_eq_get hi
    exact tunnelRel_trans (ht1 i a _ ha hm) (ht2 i _ b hm hb)

/-- Mapping the super update over the super table respects the store
frame relation. -/
theorem storeRel_super_map (st : LoaderStore) (tp : String) (bl : Nat) (dp : String) :
    storeRel st { st with super := st.super.map (super_update_row tp bl dp) } := by
  refine ⟨(List.length_map _ _).symm, rfl, ?_, ?_⟩
  · intro i a b ha hb
    show superRel a b
    rw [show ({ st with super := st.super.map (super_update_row tp bl dp) } : LoaderStore).super =
      st.super.map (super_update_row tp bl dp) from rfl] at hb
    rw [List.get?_map, ha] at hb
    cases hb
    exact superRel_update tp bl dp a
  · intro i a b ha hb
    rw [ha] at hb
    cases hb
    exact tunnelRel_refl a

/-- Mapping the tunnel update over the tunnel table respects the store
frame relation. -/
theorem storeRel_tunnel_map (st : LoaderStore) (tp : String) (bl : Nat) (dp : String) :
    storeRel st { st with tunnel := st.tunnel.map (tunnel_update_row tp bl dp) } := by
  refine ⟨rfl, (List.length_map _ _).symm, ?_, ?_⟩
  · intro i a b ha hb
    rw [ha] at hb
    cases hb
    exact superRel_refl a
  · intro i a b ha hb
    rw [show ({ st with tunnel := st.tunnel.map (tunnel_update_row tp bl dp) } : LoaderStore).tunnel =
      st.tunnel.map (tunnel_update_row tp bl dp) from rfl] at hb
    rw [List.get?_map, ha] at hb
    cases hb
    exact tunnelRel_update tp bl dp a

/-- The super-then-tunnel stage of a block respects the store frame
relation. -/
theorem superTunnelStage_storeRel (orc : LoaderOracle) (st : LoaderStore) (i : Nat)
    (b : BlockData) (ex ia io : Bool) :
    storeRel st (superTunnelStage orc st i b ex ia io).1 := by
  unfold superTunnelStage
  split_ifs
  · exact storeRel_refl st
  · exact storeRel_super_map st b.time_part b.bill b.date_part
  · exact storeRel_trans (storeRel_super_map st b.time_part b.bill b.date_part)
      (storeRel_tunnel_map _ b.time_part b.bill b.date_part)

/-- One block of the loop respects the store frame relation. -/
theorem process_block_storeRel (orc : LoaderOracle) (st : LoaderStore) (i : Nat)
    (l1 l2 l4 : String) :
    storeRel st (process_block orc st i l1 l2 l4).1 := by
  cases hp : parse_block l1 l2 l4 with
  | none =>
    simp only [process_block, hp]
    exact storeRel_refl st
  | some b =>
    simp only [process_block, hp]
    split_ifs
    · exact superTunnelStage_storeRel orc st i b true false false
    · exact storeRel_refl st
    · exact storeRel_trans
        (show storeRel st { st with loader_log := st.loader_log ++ [⟨b.bill, b.washify_rec, b.date_part, b.time_part⟩] } from
          ⟨rfl, rfl, fun _ a c ha hb => by rw [ha] at hb; cases hb; exact superRel_refl a,
            fun _ a c ha hb => by rw [ha] at hb; cases hb; exact tunnelRel_refl a⟩)
        (superTunnelStage_storeRel orc _ i b false true true)

/-- The whole block loop respects the store frame relation. -/
theorem blocksLoopF_storeRel (orc : LoaderOracle) (lines : List String) :
    ∀ (fuel i : Nat) (st : LoaderStore), storeRel st (blocksLoopF orc lines fuel i st).1 := by
  intro fuel
  induction fuel with
  | zero => intro i st; exact storeRel_refl st
  | succ fuel ih =>
    intro i st
    show storeRel st (if i < lines.length then
        if i + 3 ≥ lines.length then (st, ([] : List BlockReport))
        else ((blocksLoopF orc lines fuel (i + 4)
              (process_block orc st i (lines.getD i "") (lines.getD (i + 1) "") (lines.getD (i + 3) "")).1).1,
            (process_block orc st i (lines.getD i "") (lines.getD (i + 1) "") (lines.getD (i + 3) "")).2 ::
              (blocksLoopF orc lines fuel (i + 4)
                (process_block orc st i (lines.getD i "") (lines.getD (i + 1) "") (lines.getD (i + 3) "")).1).2)
      else (st, [])).1
    split_ifs
    · exact storeRel_refl st
    · exact storeRel_trans (process_block_storeRel orc st i _ _ _) (ih (i + 4) _)
    · exact storeRel_refl st

/-- C10: every super or tunnel row a loader run mutates was an FRA row —
both dependent updates filter on the hard-coded location FRA, so rows of
any other location are left unchanged by every run; the super update
additionally leaves any row whose status is already 3 or more unchanged. -/
theorem loader_updates_fra_only (orc : LoaderOracle) (st : LoaderStore) (lines : List String) :
    (∀ i a b, st.super.get? i = some a →
        (process_file orc st lines).store.super.get? i = some b →
        (b ≠ a → a.location = "FRA" ∧ status_lt3 a.status = true) ∧
          (status_lt3 a.status = false → b = a)) ∧
      (∀ i a b, st.tunnel.get? i = some a →
          (process_file orc st lines).store.tunnel.get? i = some b →
          (b ≠ a → a.location = "FRA")) := by
  have h : storeRel st (process_file orc st lines).store :=
    blocksLoopF_storeRel orc lines (lines.length + 1)
      (start_index lines (get_last_processed_bill st.loader_log)) st
  exact ⟨fun i a b ha hb => ⟨(h.2.2.1 i a b ha hb).1, (h.2.2.1 i a b ha hb).2.2⟩,
    fun i a b ha hb => (h.2.2.2 i a b ha hb).1⟩

/-- Witness for C10: a run over one well-formed block against a store
holding one FRA super row (advanced to status 3) and one FRA tunnel row
(load flag set); the frame conclusions hold at row 0 of each table. -/
theorem loader_updates_fra_only_witness :
    (((⟨55019, "11/04/2025", "FRA", some 3, some "09:15:02", some "Wash"⟩ : SuperRow) ≠
          (⟨55019, "11/04/2025", "FRA", none, none, none⟩ : SuperRow) →
        (⟨55019, "11/04/2025", "FRA", none, none, none⟩ : SuperRow).location = "FRA" ∧
          status_lt3 (⟨55019, "11/04/2025", "FRA", none, none, none⟩ : SuperRow).status = true) ∧
      (status_lt3 (⟨55019, "11/04/2025", "FRA", none, none, none⟩ : SuperRow).status = false →
        (⟨55019, "11/04/2025", "FRA", some 3, some "09:15:02", some "Wash"⟩ : SuperRow) =
          (⟨55019, "11/04/2025", "FRA", none, none, none⟩ : SuperRow))) ∧
      (((⟨55019, "11/04/2025", "FRA", true, some "09:15:02"⟩ : TunnelRow) ≠
          (⟨55019, "11/04/2025", "FRA", false, none⟩ : TunnelRow) →
        (⟨55019, "11/04/2025", "FRA", false, none⟩ : TunnelRow).location = "FRA")) :=
  ⟨(loader_updates_fra_only okOracle fraStore goodLines).1 0
      ⟨55019, "11/04/2025", "FRA", none, none, none⟩
      ⟨55019, "11/04/2025", "FRA", some 3, some "09:15:02", some "Wash"⟩ rfl rfl,
    (loader_updates_fra_only okOracle fraStore goodLines).2 0
      ⟨55019, "11/04/2025", "FRA", false, none⟩
      ⟨55019, "11/04/2025", "FRA", true, some "09:15:02"⟩ rfl rfl⟩

end Washify
